import Mathlib

/-!
Shallow embedding of the VoxelCharacterPlugin character controller
(camera mode blending stack, voxel-aware movement overrides, terrain
context queries, GAS attribute set) over exact rational arithmetic.

Engine floats are modelled as `ℚ`; engine vector/quaternion types are
modelled structurally.  Engine collision queries (line traces, sweeps)
are abstracted as oracle functions passed in explicitly, and engine
base-class behaviour (`Super::FindFloor`, `Super::IsValidLandingSpot`,
`FQuat::Slerp`) is abstracted as parameters, since only this plugin's
post-processing of those results is being verified.
-/

namespace VoxelCharacter

/-- UE `KINDA_SMALL_NUMBER` / `UE_KINDA_SMALL_NUMBER` = 1.e-4. -/
def KINDA_SMALL_NUMBER : ℚ := 1 / 10000

/-- UE `SMALL_NUMBER` / `UE_SMALL_NUMBER` = 1.e-8 (used inside `FInterpTo`). -/
def SMALL_NUMBER : ℚ := 1 / 100000000

/-- Engine `FVector`, modelled with exact rational components. -/
structure FVector where
  x : ℚ
  y : ℚ
  z : ℚ
  deriving DecidableEq, Repr

namespace FVector

def add (a b : FVector) : FVector := ⟨a.x + b.x, a.y + b.y, a.z + b.z⟩

def sub (a b : FVector) : FVector := ⟨a.x - b.x, a.y - b.y, a.z - b.z⟩

def neg (a : FVector) : FVector := ⟨-a.x, -a.y, -a.z⟩

def scale (k : ℚ) (a : FVector) : FVector := ⟨k * a.x, k * a.y, k * a.z⟩

def zero : FVector := ⟨0, 0, 0⟩

instance : Add FVector := ⟨add⟩
instance : Sub FVector := ⟨sub⟩
instance : Neg FVector := ⟨neg⟩
instance : Zero FVector := ⟨zero⟩

@[simp] theorem add_def (a b : FVector) :
    a + b = ⟨a.x + b.x, a.y + b.y, a.z + b.z⟩ := rfl

@[simp] theorem sub_def (a b : FVector) :
    a - b = ⟨a.x - b.x, a.y - b.y, a.z - b.z⟩ := rfl

@[simp] theorem neg_def (a : FVector) : -a = ⟨-a.x, -a.y, -a.z⟩ := rfl

@[simp] theorem zero_def : (0 : FVector) = ⟨0, 0, 0⟩ := rfl

@[simp] theorem scale_def (k : ℚ) (a : FVector) :
    scale k a = ⟨k * a.x, k * a.y, k * a.z⟩ := rfl

end FVector

/-- Engine `FMath::Clamp` (sequential min-then-max comparison). -/
def FMathClamp (x lo hi : ℚ) : ℚ :=
  if x < lo then lo else if x > hi then hi else x

/-- Engine `FMath::Max`. -/
def FMathMax (a b : ℚ) : ℚ := if a ≥ b then a else b

/-- Engine `FMath::Lerp`: `a + (b - a) * t`. -/
def FMathLerp (a b t : ℚ) : ℚ := a + (b - a) * t

/-- Modelled from the engine's `FMath::FInterpTo` (the plugin calls it but its
body lives in the engine): returns `Target` when `InterpSpeed ≤ 0` or when the
remaining distance squared is below `SMALL_NUMBER`, otherwise moves `Current`
toward `Target` by `Dist * Clamp(DeltaTime * InterpSpeed, 0, 1)`. -/
def FInterpTo (current target deltaTime interpSpeed : ℚ) : ℚ :=
  if interpSpeed ≤ 0 then target
  else if (target - current) * (target - current) < SMALL_NUMBER then target
  else current + (target - current) * FMathClamp (deltaTime * interpSpeed) 0 1

-- ---------------------------------------------------------------------------
-- Camera mode stack (UVCCameraManager)
-- ---------------------------------------------------------------------------

/-- A stacked camera mode: only its current blend weight matters for the stack
bookkeeping (`UVCCameraModeBase::CurrentBlendWeight`).  The stack is a list
with the TOP of the stack at the END, matching `TArray::Push`/`Pop`. -/
structure CameraMode where
  weight : ℚ
  deriving DecidableEq, Repr

/-- The blend speed chosen in `UVCCameraManager::UpdateCamera`:
`1 / ModeTransitionBlendTime` when the blend time exceeds
`KINDA_SMALL_NUMBER`, else the near-instant rate `100`. -/
def blendSpeed (modeTransitionBlendTime : ℚ) : ℚ :=
  if modeTransitionBlendTime > KINDA_SMALL_NUMBER then 1 / modeTransitionBlendTime
  else 100

/-- The blend-weight update loop of `UpdateCamera`: the top (last) mode
interpolates toward `1`, every other mode toward `0`, via `FInterpTo`. -/
def updateBlendWeights (deltaTime speed : ℚ) : List CameraMode → List CameraMode
  | [] => []
  | [top] => [⟨FInterpTo top.weight 1 deltaTime speed⟩]
  | m :: rest => ⟨FInterpTo m.weight 0 deltaTime speed⟩ :: updateBlendWeights deltaTime speed rest

/-- The removal loop of `UpdateCamera`: every mode except the top one whose
blend weight has decayed to `≤ KINDA_SMALL_NUMBER` is removed (the loop walks
indices `Num-2 .. 0`, so the top mode is never removed). -/
def removeBlendedOut : List CameraMode → List CameraMode
  | [] => []
  | [top] => [top]
  | m :: rest =>
      (if m.weight ≤ KINDA_SMALL_NUMBER then removeBlendedOut rest
       else m :: removeBlendedOut rest)

/-- `UVCCameraManager::PushCameraMode`: a null class is a warning-only no-op;
otherwise a fresh mode with `CurrentBlendWeight = 0` is pushed. -/
def PushCameraMode (classIsNull : Bool) (stack : List CameraMode) : List CameraMode :=
  if classIsNull then stack else stack ++ [⟨0⟩]

/-- `UVCCameraManager::PopCameraMode`: pops only when more than one mode is
stacked. -/
def PopCameraMode (stack : List CameraMode) : List CameraMode :=
  if stack.length > 1 then stack.dropLast else stack

/-- `UVCCameraManager::BeginPlay`: pushes the default third-person mode when
the stack is empty and `ThirdPersonModeClass` is non-null. -/
def CameraBeginPlay (thirdPersonClassIsNull : Bool) (stack : List CameraMode) :
    List CameraMode :=
  if stack.length = 0 ∧ ¬thirdPersonClassIsNull then PushCameraMode thirdPersonClassIsNull stack
  else stack

/-- The stack bookkeeping performed by one `UpdateCamera(DeltaTime)` call
(early-out on an empty stack, weight update, removal of blended-out modes). -/
def UpdateCameraStack (modeTransitionBlendTime deltaTime : ℚ)
    (stack : List CameraMode) : List CameraMode :=
  if stack.length = 0 then stack
  else removeBlendedOut (updateBlendWeights deltaTime (blendSpeed modeTransitionBlendTime) stack)

/-- Operations a client can perform on the camera stack after `BeginPlay`. -/
inductive CameraOp where
  | push (classIsNull : Bool)
  | pop
  | update (modeTransitionBlendTime deltaTime : ℚ)
  deriving DecidableEq, Repr

def applyCameraOp (stack : List CameraMode) : CameraOp → List CameraMode
  | .push b => PushCameraMode b stack
  | .pop => PopCameraMode stack
  | .update bt dt => UpdateCameraStack bt dt stack

-- ---------------------------------------------------------------------------
-- Blended camera transform (UpdateCamera, "Compute blended transform" loop)
-- ---------------------------------------------------------------------------

/-- One stacked mode's contribution to the blend: its current blend weight and
its desired transform (`ComputeDesiredTransform`), already evaluated for the
current character and `DeltaTime`.  The rotation type `R` abstracts `FQuat`
(whose `Slerp` is engine trigonometry, passed in as a parameter). -/
structure BlendModeInput (R : Type) where
  weight : ℚ
  location : FVector
  rotation : R
  fov : ℚ

/-- Accumulator of the blend loop: `BlendedLocation`, `BlendedRotation`,
`BlendedFOV`, `TotalWeight`. -/
structure BlendAccum (R : Type) where
  blendedLocation : FVector
  blendedRotation : R
  blendedFOV : ℚ
  totalWeight : ℚ

/-- One iteration of the blend loop in `UpdateCamera`: modes with weight
`≤ KINDA_SMALL_NUMBER` are skipped; otherwise the weighted location is
accumulated, the rotation is slerped with alpha `W / (TotalWeight + W)`
(taken directly when `TotalWeight ≤ KINDA_SMALL_NUMBER`), the FOV is lerped
and the weight added to the running total. -/
def blendStep {R : Type} (slerp : R → R → ℚ → R) (acc : BlendAccum R)
    (m : BlendModeInput R) : BlendAccum R :=
  if m.weight ≤ KINDA_SMALL_NUMBER then acc
  else
    { blendedLocation := acc.blendedLocation + FVector.scale m.weight m.location
      blendedRotation :=
        if acc.totalWeight ≤ KINDA_SMALL_NUMBER then m.rotation
        else slerp acc.blendedRotation m.rotation (m.weight / (acc.totalWeight + m.weight))
      blendedFOV := FMathLerp acc.blendedFOV m.fov m.weight
      totalWeight := acc.totalWeight + m.weight }

/-- The final normalization of `UpdateCamera`: `BlendedLocation /= TotalWeight`
when the total weight exceeds `KINDA_SMALL_NUMBER`. -/
def normalizeBlend {R : Type} (acc : BlendAccum R) : BlendAccum R :=
  if acc.totalWeight > KINDA_SMALL_NUMBER then
    { acc with blendedLocation := FVector.scale (1 / acc.totalWeight) acc.blendedLocation }
  else acc

/-- The "Compute blended transform" section of `UpdateCamera`: fold the blend
loop over the stack starting from `(ZeroVector, FQuat::Identity, 90, 0)`, then
normalize the location by the total weight when it exceeds
`KINDA_SMALL_NUMBER`. -/
def ComputeBlendedTransform {R : Type} (slerp : R → R → ℚ → R) (identityR : R)
    (stack : List (BlendModeInput R)) : BlendAccum R :=
  normalizeBlend (stack.foldl (blendStep slerp) ⟨0, identityR, 90, 0⟩)

/-- The modes that participate in the blend: blend weight strictly above
`KINDA_SMALL_NUMBER`. -/
def includedModes {R : Type} (stack : List (BlendModeInput R)) : List (BlendModeInput R) :=
  stack.filter (fun m => decide (KINDA_SMALL_NUMBER < m.weight))

/-- Spec-side definition (from the claim's words): the total blend weight of
the participating modes. -/
def specTotalWeight {R : Type} (stack : List (BlendModeInput R)) : ℚ :=
  ((includedModes stack).map (fun m => m.weight)).sum

/-- Spec-side definition (from the claim's words): the sum over participating
modes of the mode's desired location times its blend weight. -/
def specWeightedLocationSum {R : Type} (stack : List (BlendModeInput R)) : FVector :=
  (includedModes stack).foldr (fun m s => FVector.scale m.weight m.location + s) 0

/-- Spec-side definition (from the claim's words): the weighted location sum
divided by the total blend weight. -/
def specBlendedLocation {R : Type} (stack : List (BlendModeInput R)) : FVector :=
  FVector.scale (1 / specTotalWeight stack) (specWeightedLocationSum stack)

/-- Progressive weighted slerp over a list of modes, carrying the accumulated
weight: each step slerps toward the next rotation with alpha
`W_i / (accumulated + W_i)`. -/
def progressiveSlerpAux {R : Type} (slerp : R → R → ℚ → R) :
    R → ℚ → List (BlendModeInput R) → R
  | r, _, [] => r
  | r, accW, m :: rest =>
      progressiveSlerpAux slerp (slerp r m.rotation (m.weight / (accW + m.weight)))
        (accW + m.weight) rest

/-- Spec-side definition (from the claim's words): the progressive weighted
slerp of the participating modes' rotations in stack order, starting from the
first participating mode's rotation. -/
def specBlendedRotation {R : Type} (slerp : R → R → ℚ → R) (identityR : R)
    (stack : List (BlendModeInput R)) : R :=
  match includedModes stack with
  | [] => identityR
  | m :: rest => progressiveSlerpAux slerp m.rotation m.weight rest

-- ---------------------------------------------------------------------------
-- Lemmas about the blend loop
-- ---------------------------------------------------------------------------

theorem KINDA_SMALL_NUMBER_pos : (0 : ℚ) < KINDA_SMALL_NUMBER := by
  norm_num [KINDA_SMALL_NUMBER]

@[simp] theorem FVector.add_zero (a : FVector) : a + 0 = a := by
  simp [FVector.add_def]

@[simp] theorem FVector.zero_add (a : FVector) : 0 + a = a := by
  simp [FVector.add_def]

theorem FVector.add_assoc (a b c : FVector) : a + b + c = a + (b + c) := by
  simp [FVector.add_def]; exact ⟨by ring, by ring, by ring⟩

theorem includedModes_cons_included {R : Type} {m : BlendModeInput R}
    {rest : List (BlendModeInput R)} (h : KINDA_SMALL_NUMBER < m.weight) :
    includedModes (m :: rest) = m :: includedModes rest := by
  simp [includedModes, List.filter_cons, h]

theorem includedModes_cons_skipped {R : Type} {m : BlendModeInput R}
    {rest : List (BlendModeInput R)} (h : m.weight ≤ KINDA_SMALL_NUMBER) :
    includedModes (m :: rest) = includedModes rest := by
  simp [includedModes, List.filter_cons, not_lt.mpr h]

theorem foldl_blendStep_totalWeight {R : Type} (slerp : R → R → ℚ → R)
    (l : List (BlendModeInput R)) :
    ∀ acc : BlendAccum R,
      (l.foldl (blendStep slerp) acc).totalWeight = acc.totalWeight + specTotalWeight l := by
  induction l with
  | nil => intro acc; simp [specTotalWeight, includedModes]
  | cons m rest ih =>
    intro acc
    by_cases h : m.weight ≤ KINDA_SMALL_NUMBER
    · simp [blendStep, h, specTotalWeight, includedModes_cons_skipped h, ih]
    · have h' : KINDA_SMALL_NUMBER < m.weight := not_le.mp h
      simp only [List.foldl_cons, blendStep, if_neg h]
      rw [ih]
      simp [specTotalWeight, includedModes_cons_included h']
      ring

theorem foldl_blendStep_blendedLocation {R : Type} (slerp : R → R → ℚ → R)
    (l : List (BlendModeInput R)) :
    ∀ acc : BlendAccum R,
      (l.foldl (blendStep slerp) acc).blendedLocation =
        acc.blendedLocation + specWeightedLocationSum l := by
  induction l with
  | nil => intro acc; simp [specWeightedLocationSum, includedModes]
  | cons m rest ih =>
    intro acc
    by_cases h : m.weight ≤ KINDA_SMALL_NUMBER
    · simp only [List.foldl_cons, blendStep, if_pos h]
      rw [ih]
      simp [specWeightedLocationSum, includedModes_cons_skipped h]
    · have h' : KINDA_SMALL_NUMBER < m.weight := not_le.mp h
      simp only [List.foldl_cons, blendStep, if_neg h]
      rw [ih]
      simp only [specWeightedLocationSum, includedModes_cons_included h', List.foldr_cons]
      exact FVector.add_assoc _ _ _

theorem includedModes_weight_pos {R : Type} {stack : List (BlendModeInput R)}
    {m : BlendModeInput R} (h : m ∈ includedModes stack) :
    KINDA_SMALL_NUMBER < m.weight := by
  have h' := List.of_mem_filter h
  simpa using h'

theorem foldl_blendStep_rotation_pos {R : Type} (slerp : R → R → ℚ → R)
    (l : List (BlendModeInput R)) :
    ∀ acc : BlendAccum R, KINDA_SMALL_NUMBER < acc.totalWeight →
      (l.foldl (blendStep slerp) acc).blendedRotation =
        progressiveSlerpAux slerp acc.blendedRotation acc.totalWeight (includedModes l) := by
  induction l with
  | nil => intro acc _; simp [includedModes, progressiveSlerpAux]
  | cons m rest ih =>
    intro acc hacc
    by_cases h : m.weight ≤ KINDA_SMALL_NUMBER
    · simp only [List.foldl_cons, blendStep, if_pos h]
      rw [ih acc hacc, includedModes_cons_skipped h]
    · have h' : KINDA_SMALL_NUMBER < m.weight := not_le.mp h
      have hw : 0 < m.weight := lt_trans KINDA_SMALL_NUMBER_pos h'
      have hacc' : KINDA_SMALL_NUMBER < acc.totalWeight + m.weight := by linarith
      simp only [List.foldl_cons, blendStep, if_neg h, if_neg (not_le.mpr hacc)]
      rw [ih _ hacc', includedModes_cons_included h']
      rfl

theorem foldl_blendStep_rotation_zero {R : Type} (slerp : R → R → ℚ → R)
    (l : List (BlendModeInput R)) :
    ∀ acc : BlendAccum R, acc.totalWeight = 0 →
      (l.foldl (blendStep slerp) acc).blendedRotation =
        match includedModes l with
        | [] => acc.blendedRotation
        | m :: rest => progressiveSlerpAux slerp m.rotation m.weight rest := by
  induction l with
  | nil => intro acc _; simp [includedModes]
  | cons m rest ih =>
    intro acc hacc
    by_cases h : m.weight ≤ KINDA_SMALL_NUMBER
    · simp only [List.foldl_cons, blendStep, if_pos h]
      rw [ih acc hacc, includedModes_cons_skipped h]
    · have h' : KINDA_SMALL_NUMBER < m.weight := not_le.mp h
      have hle : acc.totalWeight ≤ KINDA_SMALL_NUMBER := by
        rw [hacc]; exact le_of_lt KINDA_SMALL_NUMBER_pos
      have hacc' : KINDA_SMALL_NUMBER < acc.totalWeight + m.weight := by
        rw [hacc]; simpa using h'
      simp only [List.foldl_cons, blendStep, if_neg h, if_pos hle]
      rw [foldl_blendStep_rotation_pos slerp rest _ hacc', includedModes_cons_included h']
      simp [hacc]

theorem specTotalWeight_pos {R : Type} {stack : List (BlendModeInput R)}
    (hne : includedModes stack ≠ []) :
    KINDA_SMALL_NUMBER < specTotalWeight stack := by
  unfold specTotalWeight
  obtain ⟨m, rest, heq⟩ := List.exists_cons_of_ne_nil hne
  have hall : ∀ x ∈ includedModes stack, KINDA_SMALL_NUMBER < x.weight :=
    fun x hx => includedModes_weight_pos hx
  rw [heq] at hall ⊢
  simp only [List.map_cons, List.sum_cons]
  have hm : KINDA_SMALL_NUMBER < m.weight := hall m (by simp)
  have hrest : 0 ≤ (rest.map (fun m => m.weight)).sum := by
    apply List.sum_nonneg
    intro x hx
    obtain ⟨y, hy, rfl⟩ := List.mem_map.mp hx
    exact le_of_lt (lt_trans KINDA_SMALL_NUMBER_pos (hall y (by simp [hy])))
  linarith

/-- C1: for every `UpdateCamera` call in which at least one stacked camera mode
has blend weight above `KINDA_SMALL_NUMBER`, the blended camera location equals
the sum over those modes of (desired location × blend weight) divided by the
total blend weight, and the blended rotation is the progressive weighted slerp
of the modes' desired rotations in stack order with slerp alpha
`W_i / (accumulated weight + W_i)`. -/
theorem UpdateCamera_blend_is_weighted_blend {R : Type} (slerp : R → R → ℚ → R)
    (identityR : R) (stack : List (BlendModeInput R))
    (h : ∃ m ∈ stack, KINDA_SMALL_NUMBER < m.weight) :
    (ComputeBlendedTransform slerp identityR stack).blendedLocation =
      specBlendedLocation stack ∧
    (ComputeBlendedTransform slerp identityR stack).blendedRotation =
      specBlendedRotation slerp identityR stack := by
  obtain ⟨m, hmem, hw⟩ := h
  have hmem' : m ∈ includedModes stack :=
    List.mem_filter.mpr ⟨hmem, by simp [hw]⟩
  have hne : includedModes stack ≠ [] := fun hnil => by simp [hnil] at hmem'
  have htot : KINDA_SMALL_NUMBER < specTotalWeight stack := specTotalWeight_pos hne
  have htw : (stack.foldl (blendStep slerp) ⟨0, identityR, 90, 0⟩).totalWeight =
      specTotalWeight stack := by
    rw [foldl_blendStep_totalWeight]; simp
  have hloc : (stack.foldl (blendStep slerp) ⟨0, identityR, 90, 0⟩).blendedLocation =
      specWeightedLocationSum stack := by
    rw [foldl_blendStep_blendedLocation]; simp
  have hguard : (stack.foldl (blendStep slerp) ⟨0, identityR, 90, 0⟩).totalWeight >
      KINDA_SMALL_NUMBER := by rw [htw]; exact htot
  constructor
  · unfold ComputeBlendedTransform normalizeBlend
    rw [if_pos hguard]
    simp only [htw, hloc]
    rfl
  · unfold ComputeBlendedTransform normalizeBlend
    rw [if_pos hguard]
    simp only
    rw [foldl_blendStep_rotation_zero slerp stack _ rfl]
    unfold specBlendedRotation
    obtain ⟨m0, rest0, heq⟩ := List.exists_cons_of_ne_nil hne
    rw [heq]

/-- Concrete slerp instantiation used by witnesses (linear interpolation on ℚ
standing in for an abstract rotation type). -/
def sampleSlerp : ℚ → ℚ → ℚ → ℚ := fun a b t => a + (b - a) * t

/-- Concrete two-mode stack used by the C1 witness. -/
def sampleBlendStack : List (BlendModeInput ℚ) :=
  [⟨1/2, ⟨1, 2, 3⟩, 5, 80⟩, ⟨1/4, ⟨4, 0, 1⟩, 7, 100⟩]

theorem UpdateCamera_blend_is_weighted_blend_witness :
    (∃ m ∈ sampleBlendStack, KINDA_SMALL_NUMBER < m.weight) ∧
    ((ComputeBlendedTransform sampleSlerp 0 sampleBlendStack).blendedLocation =
        specBlendedLocation sampleBlendStack ∧
      (ComputeBlendedTransform sampleSlerp 0 sampleBlendStack).blendedRotation =
        specBlendedRotation sampleSlerp 0 sampleBlendStack) :=
  ⟨⟨⟨1/2, ⟨1, 2, 3⟩, 5, 80⟩, by simp [sampleBlendStack], by norm_num [KINDA_SMALL_NUMBER]⟩,
    UpdateCamera_blend_is_weighted_blend sampleSlerp 0 sampleBlendStack
      ⟨⟨1/2, ⟨1, 2, 3⟩, 5, 80⟩, by simp [sampleBlendStack], by norm_num [KINDA_SMALL_NUMBER]⟩⟩

-- ---------------------------------------------------------------------------
-- C2: blend-weight interpolation
-- ---------------------------------------------------------------------------

theorem FMathClamp_unit_mem (x : ℚ) :
    0 ≤ FMathClamp x 0 1 ∧ FMathClamp x 0 1 ≤ 1 := by
  unfold FMathClamp
  split_ifs with h1 h2 <;> constructor <;> linarith

theorem FInterpTo_unit_mem (current target deltaTime interpSpeed : ℚ)
    (hc0 : 0 ≤ current) (hc1 : current ≤ 1) (ht : target = 0 ∨ target = 1) :
    0 ≤ FInterpTo current target deltaTime interpSpeed ∧
      FInterpTo current target deltaTime interpSpeed ≤ 1 := by
  unfold FInterpTo
  have hclamp := FMathClamp_unit_mem (deltaTime * interpSpeed)
  split_ifs with h1 h2
  · rcases ht with rfl | rfl <;> constructor <;> linarith
  · rcases ht with rfl | rfl <;> constructor <;> linarith
  · rcases ht with rfl | rfl
    · constructor
      · nlinarith [mul_nonneg hc0 (sub_nonneg.mpr hclamp.2)]
      · nlinarith [mul_nonneg hc0 hclamp.1]
    · constructor
      · nlinarith [mul_nonneg (sub_nonneg.mpr hc1) hclamp.1]
      · nlinarith [mul_nonneg (sub_nonneg.mpr hc1) (sub_nonneg.mpr hclamp.2)]

theorem updateBlendWeights_length (deltaTime speed : ℚ) :
    ∀ stack : List CameraMode,
      (updateBlendWeights deltaTime speed stack).length = stack.length := by
  intro stack
  induction stack with
  | nil => rfl
  | cons m rest ih =>
    cases rest with
    | nil => rfl
    | cons r rest' => simpa [updateBlendWeights] using ih

theorem updateBlendWeights_get (deltaTime speed : ℚ) :
    ∀ (stack : List CameraMode) (i : ℕ)
      (h1 : i < (updateBlendWeights deltaTime speed stack).length)
      (h2 : i < stack.length),
      ((updateBlendWeights deltaTime speed stack).get ⟨i, h1⟩).weight =
        FInterpTo (stack.get ⟨i, h2⟩).weight
          (if i = stack.length - 1 then 1 else 0) deltaTime speed := by
  intro stack
  induction stack with
  | nil => intro i h1 h2; exact absurd h2 (by simp)
  | cons m rest ih =>
    intro i h1 h2
    cases rest with
    | nil =>
      cases i with
      | zero => simp [updateBlendWeights]
      | succ j => simp at h2
    | cons r rest' =>
      cases i with
      | zero => simp [updateBlendWeights]
      | succ j =>
        have h1' : j < (updateBlendWeights deltaTime speed (r :: rest')).length := by
          simpa [updateBlendWeights] using h1
        have h2' : j < (r :: rest').length := by simpa using h2
        have := ih j h1' h2'
        simp only [updateBlendWeights, List.get_cons_succ] at this ⊢
        rw [this]
        congr 1
        have hl : (m :: r :: rest').length - 1 = rest'.length + 1 := by simp
        have hr : (r :: rest').length - 1 = rest'.length := by simp
        rw [hl, hr]
        by_cases hj : j = rest'.length
        · simp [hj]
        · rw [if_neg hj, if_neg (by omega)]

theorem updateBlendWeights_unit_mem (deltaTime speed : ℚ) :
    ∀ stack : List CameraMode,
      (∀ m ∈ stack, 0 ≤ m.weight ∧ m.weight ≤ 1) →
      ∀ m ∈ updateBlendWeights deltaTime speed stack, 0 ≤ m.weight ∧ m.weight ≤ 1 := by
  intro stack
  induction stack with
  | nil => intro _ m hm; simp [updateBlendWeights] at hm
  | cons a rest ih =>
    intro hb m hm
    cases rest with
    | nil =>
      simp [updateBlendWeights] at hm
      subst hm
      exact FInterpTo_unit_mem _ _ _ _ (hb a (by simp)).1 (hb a (by simp)).2 (Or.inr rfl)
    | cons r rest' =>
      simp only [updateBlendWeights, List.mem_cons] at hm
      rcases hm with rfl | hm
      · exact FInterpTo_unit_mem _ _ _ _ (hb a (by simp)).1 (hb a (by simp)).2 (Or.inl rfl)
      · exact ih (fun x hx => hb x (by simp [hx])) m hm

/-- C2: on every `UpdateCamera` step the top mode's blend weight is
interpolated toward `1` and every other mode's toward `0` via `FInterpTo`,
with interpolation speed `1 / ModeTransitionBlendTime` when the blend time
exceeds `KINDA_SMALL_NUMBER` and the near-instant rate `100` otherwise, and
every blend weight stays within `[0, 1]` given it starts there. -/
theorem UpdateCamera_blend_weight_interpolation (modeTransitionBlendTime deltaTime : ℚ)
    (stack : List CameraMode)
    (hb : ∀ m ∈ stack, 0 ≤ m.weight ∧ m.weight ≤ 1) :
    (modeTransitionBlendTime > KINDA_SMALL_NUMBER →
        blendSpeed modeTransitionBlendTime = 1 / modeTransitionBlendTime) ∧
    (¬ modeTransitionBlendTime > KINDA_SMALL_NUMBER →
        blendSpeed modeTransitionBlendTime = 100) ∧
    (updateBlendWeights deltaTime (blendSpeed modeTransitionBlendTime) stack).length =
        stack.length ∧
    (∀ (i : ℕ)
        (h1 : i < (updateBlendWeights deltaTime (blendSpeed modeTransitionBlendTime) stack).length)
        (h2 : i < stack.length),
      ((updateBlendWeights deltaTime (blendSpeed modeTransitionBlendTime) stack).get
          ⟨i, h1⟩).weight =
        FInterpTo (stack.get ⟨i, h2⟩).weight (if i = stack.length - 1 then 1 else 0)
          deltaTime (blendSpeed modeTransitionBlendTime)) ∧
    (∀ m ∈ updateBlendWeights deltaTime (blendSpeed modeTransitionBlendTime) stack,
      0 ≤ m.weight ∧ m.weight ≤ 1) := by
  refine ⟨fun h => by simp [blendSpeed, h], fun h => by simp [blendSpeed, h], ?_, ?_, ?_⟩
  · exact updateBlendWeights_length _ _ stack
  · exact fun i h1 h2 => updateBlendWeights_get _ _ stack i h1 h2
  · exact updateBlendWeights_unit_mem _ _ stack hb

theorem UpdateCamera_blend_weight_interpolation_witness :
    ((1 : ℚ)/2 > KINDA_SMALL_NUMBER → blendSpeed (1/2) = 1 / (1/2)) ∧
    (¬ (1 : ℚ)/2 > KINDA_SMALL_NUMBER → blendSpeed (1/2) = 100) ∧
    (updateBlendWeights (1/10) (blendSpeed (1/2)) [⟨1/3⟩, ⟨1⟩]).length =
        ([⟨1/3⟩, ⟨1⟩] : List CameraMode).length ∧
    (∀ (i : ℕ)
        (h1 : i < (updateBlendWeights (1/10) (blendSpeed (1/2)) [⟨1/3⟩, ⟨1⟩]).length)
        (h2 : i < ([⟨1/3⟩, ⟨1⟩] : List CameraMode).length),
      ((updateBlendWeights (1/10) (blendSpeed (1/2)) [⟨1/3⟩, ⟨1⟩]).get ⟨i, h1⟩).weight =
        FInterpTo (([⟨1/3⟩, ⟨1⟩] : List CameraMode).get ⟨i, h2⟩).weight
          (if i = ([⟨1/3⟩, ⟨1⟩] : List CameraMode).length - 1 then 1 else 0)
          (1/10) (blendSpeed (1/2))) ∧
    (∀ m ∈ updateBlendWeights (1/10) (blendSpeed (1/2)) [⟨1/3⟩, ⟨1⟩],
      0 ≤ m.weight ∧ m.weight ≤ 1) :=
  UpdateCamera_blend_weight_interpolation (1/2) (1/10) [⟨1/3⟩, ⟨1⟩]
    (by intro m hm; simp at hm; rcases hm with rfl | rfl <;> norm_num)

-- ---------------------------------------------------------------------------
-- C9: the camera mode stack is never empty after BeginPlay
-- ---------------------------------------------------------------------------

theorem removeBlendedOut_eq_filter_dropLast :
    ∀ s : List CameraMode,
      removeBlendedOut s =
        s.dropLast.filter (fun m => decide (KINDA_SMALL_NUMBER < m.weight)) ++
          s.getLast?.toList := by
  intro s
  induction s with
  | nil => rfl
  | cons m rest ih =>
    cases rest with
    | nil => rfl
    | cons r rest' =>
      by_cases h : m.weight ≤ KINDA_SMALL_NUMBER
      · simp only [removeBlendedOut, if_pos h, ih, List.dropLast_cons₂, List.filter_cons,
          List.getLast?_cons_cons]
        simp [not_lt.mpr h]
      · simp only [removeBlendedOut, if_neg h, ih, List.dropLast_cons₂, List.filter_cons,
          List.getLast?_cons_cons]
        simp [not_le.mp h]

theorem removeBlendedOut_ne_nil :
    ∀ s : List CameraMode, s ≠ [] → removeBlendedOut s ≠ [] := by
  intro s
  induction s with
  | nil => intro h; exact absurd rfl h
  | cons m rest ih =>
    intro _
    cases rest with
    | nil => simp [removeBlendedOut]
    | cons r rest' =>
      by_cases h : m.weight ≤ KINDA_SMALL_NUMBER
      · simpa [removeBlendedOut, if_pos h] using ih (by simp)
      · simp [removeBlendedOut, if_neg h]

theorem updateBlendWeights_ne_nil (deltaTime speed : ℚ) (s : List CameraMode)
    (h : s ≠ []) : updateBlendWeights deltaTime speed s ≠ [] := by
  intro hcon
  have := updateBlendWeights_length deltaTime speed s
  rw [hcon] at this
  exact h (List.length_eq_zero.mp this.symm)

theorem applyCameraOp_ne_nil (s : List CameraMode) (op : CameraOp) (h : s ≠ []) :
    applyCameraOp s op ≠ [] := by
  cases op with
  | push b =>
    cases b with
    | true => simpa [applyCameraOp, PushCameraMode] using h
    | false => simp [applyCameraOp, PushCameraMode]
  | pop =>
    by_cases hl : s.length > 1
    · have : s.dropLast.length = s.length - 1 := by simp
      intro hcon
      simp only [applyCameraOp, PopCameraMode, if_pos hl] at hcon
      rw [hcon] at this
      simp at this
      omega
    · simpa [applyCameraOp, PopCameraMode, hl] using h
  | update bt dt =>
    have hlen : ¬ s.length = 0 := fun hc => h (List.length_eq_zero.mp hc)
    simp only [applyCameraOp, UpdateCameraStack, if_neg hlen]
    exact removeBlendedOut_ne_nil _ (updateBlendWeights_ne_nil _ _ s h)

theorem foldl_applyCameraOp_ne_nil (ops : List CameraOp) :
    ∀ s : List CameraMode, s ≠ [] → ops.foldl applyCameraOp s ≠ [] := by
  induction ops with
  | nil => intro s h; simpa using h
  | cons op rest ih =>
    intro s h
    exact ih (applyCameraOp s op) (applyCameraOp_ne_nil s op h)

/-- C9: once `BeginPlay` has pushed the default third-person mode (non-null
`ThirdPersonModeClass`, modelled as the `false` null-flag), the camera mode
stack stays nonempty under every sequence of push/pop/update operations;
moreover pushing a null class is a no-op, popping with at most one stacked
mode is a no-op, a newly pushed mode starts with blend weight `0`, and the
removal pass of `UpdateCamera` keeps the top mode and drops exactly the other
modes whose blend weight is at most `KINDA_SMALL_NUMBER`. -/
theorem CameraModeStack_never_empty (ops : List CameraOp) :
    ops.foldl applyCameraOp (CameraBeginPlay false []) ≠ [] ∧
    (∀ stack : List CameraMode, PushCameraMode true stack = stack) ∧
    (∀ stack : List CameraMode, stack.length ≤ 1 → PopCameraMode stack = stack) ∧
    (∀ stack : List CameraMode, PushCameraMode false stack = stack ++ [⟨0⟩]) ∧
    (∀ stack : List CameraMode,
      removeBlendedOut stack =
        stack.dropLast.filter (fun m => decide (KINDA_SMALL_NUMBER < m.weight)) ++
          stack.getLast?.toList) := by
  refine ⟨?_, fun stack => rfl, fun stack h => ?_, fun stack => rfl,
    removeBlendedOut_eq_filter_dropLast⟩
  · apply foldl_applyCameraOp_ne_nil
    simp [CameraBeginPlay, PushCameraMode]
  · simp [PopCameraMode, Nat.not_lt.mpr h]

theorem CameraModeStack_never_empty_witness :
    [CameraOp.push true, CameraOp.pop, CameraOp.update (3/10) (1/60)].foldl applyCameraOp
      (CameraBeginPlay false []) ≠ [] :=
  (CameraModeStack_never_empty [CameraOp.push true, CameraOp.pop,
    CameraOp.update (3/10) (1/60)]).1

-- ---------------------------------------------------------------------------
-- Movement: floor finding and landing spot (UVCMovementComponent)
-- ---------------------------------------------------------------------------

/-- Engine `FHitResult`, restricted to the fields this plugin reads/writes. -/
structure FHitResult where
  bBlockingHit : Bool
  bStartPenetrating : Bool
  impactNormal : FVector
  normal : FVector
  deriving DecidableEq, Repr

/-- Engine `FFindFloorResult`, restricted to the fields this plugin
reads/writes. -/
structure FFindFloorResult where
  bBlockingHit : Bool
  bWalkableFloor : Bool
  floorDist : ℚ
  hitResult : FHitResult
  deriving DecidableEq, Repr

/-- The inverted-normal fix applied to a hit: negate `ImpactNormal` and
`Normal`. -/
def flipHitNormals (hit : FHitResult) : FHitResult :=
  { hit with impactNormal := -hit.impactNormal, normal := -hit.normal }

/-- A line trace oracle abstracting `UWorld::LineTraceSingleByChannel`:
given start and end points, optionally a hit. -/
def TraceOracle : Type := FVector → FVector → Option FHitResult

/-- First post-processing step of `UVCMovementComponent::FindFloor`: when the
base-class result is a blocking but unwalkable hit whose impact normal points
downward (`ImpactNormal.Z < -UE_KINDA_SMALL_NUMBER`), flip both normals and
re-evaluate walkability on the flipped hit.  `isWalkable` abstracts the
engine's `UCharacterMovementComponent::IsWalkable`. -/
def fixInvertedNormal (isWalkable : FHitResult → Bool) (r : FFindFloorResult) :
    FFindFloorResult :=
  if r.bWalkableFloor = false ∧ r.bBlockingHit = true then
    if r.hitResult.impactNormal.z < -KINDA_SMALL_NUMBER then
      { r with hitResult := flipHitNormals r.hitResult,
               bWalkableFloor := isWalkable (flipHitNormals r.hitResult) }
    else r
  else r

/-- `FloorTraceMargin` from `FindFloor`: the downward line trace runs to
capsule half-height plus a 50-unit margin below the capsule location. -/
def FloorTraceMargin : ℚ := 50

/-- The "fix inverted normals on the line trace result too" step applied to a
line-trace hit before checking its walkability. -/
def fixTraceHit (hit : FHitResult) : FHitResult :=
  if hit.impactNormal.z < -KINDA_SMALL_NUMBER then flipHitNormals hit else hit

/-- Second post-processing step of `FindFloor`: when the result is still a
blocking but unwalkable hit, line-trace straight down from the capsule
location to `CapsuleHalfHeight + FloorTraceMargin` below; if the trace hits
and its (inverted-normal-fixed) normal is walkable, overwrite the floor
result's normals with the line-trace normals and mark the floor walkable. -/
def lineTraceFallback (isWalkable : FHitResult → Bool) (lineTrace : TraceOracle)
    (capsuleLocation : FVector) (capsuleHalfHeight : ℚ) (r : FFindFloorResult) :
    FFindFloorResult :=
  if r.bWalkableFloor = false ∧ r.bBlockingHit = true then
    match lineTrace capsuleLocation
        (capsuleLocation - ⟨0, 0, capsuleHalfHeight + FloorTraceMargin⟩) with
    | some rawHit =>
        if isWalkable (fixTraceHit rawHit) = true then
          { r with
            hitResult := { r.hitResult with
              impactNormal := (fixTraceHit rawHit).impactNormal,
              normal := (fixTraceHit rawHit).normal },
            bWalkableFloor := true }
        else r
    | none => r
  else r

/-- The mutable floor-grace bookkeeping of `UVCMovementComponent`
(`FloorGraceTimer`, `TimeSinceLastRealFloor`). -/
structure FloorGraceState where
  floorGraceTimer : ℚ
  timeSinceLastRealFloor : ℚ
  deriving DecidableEq, Repr

/-- `UPROPERTY` tuning values read by the grace logic (declared on
`UVCMovementComponent`). -/
structure FloorGraceParams where
  recentGroundedWindow : ℚ
  graceHeightThreshold : ℚ
  floorGraceDuration : ℚ
  deriving DecidableEq, Repr

/-- The grace check's downward trace: from the capsule bottom to
`GraceHeightThreshold` units further down. -/
def graceTraceHits (p : FloorGraceParams) (lineTrace : TraceOracle)
    (capsuleLocation : FVector) (capsuleHalfHeight : ℚ) : Bool :=
  (lineTrace (capsuleLocation - ⟨0, 0, capsuleHalfHeight⟩)
    (capsuleLocation - ⟨0, 0, capsuleHalfHeight⟩ - ⟨0, 0, p.graceHeightThreshold⟩)).isSome

/-- Whether this `FindFloor` call grants a fresh grace period: only when a
real floor was seen within `RecentGroundedWindow`, the previous grace period
has expired, and (when the character owner is valid) the grace trace finds
geometry within `GraceHeightThreshold` below the capsule bottom. -/
def graceGranted (p : FloorGraceParams) (lineTrace : TraceOracle)
    (capsuleLocation : FVector) (capsuleHalfHeight : ℚ) (hasOwner : Bool)
    (st : FloorGraceState) : Bool :=
  if st.timeSinceLastRealFloor < p.recentGroundedWindow ∧ st.floorGraceTimer ≤ 0 then
    if hasOwner = true then graceTraceHits p lineTrace capsuleLocation capsuleHalfHeight
    else true
  else false

/-- Final section of `FindFloor` (after the normal fixes): on a real walkable
floor, reset `TimeSinceLastRealFloor`; otherwise possibly grant grace and,
while the grace timer is positive, synthesize a walkable floor result
(`bWalkableFloor = true`, `bBlockingHit = true`, `FloorDist = 0`). -/
def floorGraceStep (p : FloorGraceParams) (lineTrace : TraceOracle)
    (capsuleLocation : FVector) (capsuleHalfHeight : ℚ) (hasOwner : Bool)
    (st : FloorGraceState) (r : FFindFloorResult) :
    FFindFloorResult × FloorGraceState :=
  if r.bWalkableFloor = true then (r, { st with timeSinceLastRealFloor := 0 })
  else
    let timer :=
      if graceGranted p lineTrace capsuleLocation capsuleHalfHeight hasOwner st = true then
        p.floorGraceDuration
      else st.floorGraceTimer
    (if timer > 0 then
        { r with bWalkableFloor := true, bBlockingHit := true, floorDist := 0 }
      else r,
     { st with floorGraceTimer := timer })

/-- Full post-processing of `UVCMovementComponent::FindFloor` on the
base-class result. -/
def VCFindFloorPost (p : FloorGraceParams) (isWalkable : FHitResult → Bool)
    (lineTrace : TraceOracle) (capsuleLocation : FVector) (capsuleHalfHeight : ℚ)
    (hasOwner : Bool) (st : FloorGraceState) (base : FFindFloorResult) :
    FFindFloorResult × FloorGraceState :=
  floorGraceStep p lineTrace capsuleLocation capsuleHalfHeight hasOwner st
    (lineTraceFallback isWalkable lineTrace capsuleLocation capsuleHalfHeight
      (fixInvertedNormal isWalkable base))

/-- Timer bookkeeping at the top of `UVCMovementComponent::TickComponent`:
the grace timer decays by `DeltaTime` while positive and
`TimeSinceLastRealFloor` accumulates. -/
def tickFloorTimers (deltaTime : ℚ) (st : FloorGraceState) : FloorGraceState :=
  { floorGraceTimer :=
      if st.floorGraceTimer > 0 then st.floorGraceTimer - deltaTime
      else st.floorGraceTimer,
    timeSinceLastRealFloor := st.timeSinceLastRealFloor + deltaTime }

/-- `UVCMovementComponent::IsValidLandingSpot`: non-blocking hits go straight
to the base class; non-penetrating hits with a downward impact normal are
flipped before delegating; non-penetrating unwalkable hits get the line-trace
fallback; everything else delegates unchanged.  `superIsValidLandingSpot`
abstracts `Super::IsValidLandingSpot`. -/
def VCIsValidLandingSpot (isWalkable : FHitResult → Bool)
    (superIsValidLandingSpot : FVector → FHitResult → Bool)
    (lineTrace : TraceOracle) (capsuleLocation : FVector)
    (capsuleHalfHeight : ℚ) (hit : FHitResult) : Bool :=
  if hit.bBlockingHit = false then superIsValidLandingSpot capsuleLocation hit
  else if hit.bStartPenetrating = false ∧ hit.impactNormal.z < -KINDA_SMALL_NUMBER then
    superIsValidLandingSpot capsuleLocation (flipHitNormals hit)
  else if hit.bStartPenetrating = false ∧ isWalkable hit = false then
    match lineTrace capsuleLocation
        (capsuleLocation - ⟨0, 0, capsuleHalfHeight + 50⟩) with
    | some rawHit =>
        if isWalkable (fixTraceHit rawHit) = true then
          superIsValidLandingSpot capsuleLocation
            { hit with
              impactNormal := (fixTraceHit rawHit).impactNormal,
              normal := (fixTraceHit rawHit).normal }
        else superIsValidLandingSpot capsuleLocation hit
    | none => superIsValidLandingSpot capsuleLocation hit
  else superIsValidLandingSpot capsuleLocation hit

/-- C3: for every `FindFloor` query whose base-class result is a blocking hit
marked unwalkable with impact normal Z below `-KINDA_SMALL_NUMBER`, both the
impact normal and the normal are negated and walkability is re-evaluated on
the flipped hit; `IsValidLandingSpot` applies the same inverted-normal flip
for non-penetrating blocking hits before delegating to the base class. -/
theorem FindFloor_inverted_normal_flip (isWalkable : FHitResult → Bool)
    (r : FFindFloorResult)
    (h1 : r.bWalkableFloor = false) (h2 : r.bBlockingHit = true)
    (h3 : r.hitResult.impactNormal.z < -KINDA_SMALL_NUMBER) :
    fixInvertedNormal isWalkable r =
      { r with hitResult := flipHitNormals r.hitResult,
               bWalkableFloor := isWalkable (flipHitNormals r.hitResult) } ∧
    (flipHitNormals r.hitResult).impactNormal = -r.hitResult.impactNormal ∧
    (flipHitNormals r.hitResult).normal = -r.hitResult.normal ∧
    ∀ (superIsValidLandingSpot : FVector → FHitResult → Bool)
      (lineTrace : TraceOracle) (capsuleLocation : FVector)
      (capsuleHalfHeight : ℚ) (hit : FHitResult),
      hit.bBlockingHit = true → hit.bStartPenetrating = false →
      hit.impactNormal.z < -KINDA_SMALL_NUMBER →
      VCIsValidLandingSpot isWalkable superIsValidLandingSpot lineTrace
          capsuleLocation capsuleHalfHeight hit =
        superIsValidLandingSpot capsuleLocation (flipHitNormals hit) := by
  refine ⟨?_, rfl, rfl, ?_⟩
  · unfold fixInvertedNormal
    rw [if_pos ⟨h1, h2⟩, if_pos h3]
  · intro superV lineTrace capLoc hh hit hb hp hz
    unfold VCIsValidLandingSpot
    rw [if_neg (by simp [hb]), if_pos ⟨hp, hz⟩]

/-- Walkability oracle used by witnesses: walkable when the impact normal's Z
is at least `4/7` (a 55-degree walkable floor Z is about `0.5736`). -/
def sampleIsWalkable : FHitResult → Bool :=
  fun hit => decide ((4 : ℚ)/7 ≤ hit.impactNormal.z)

/-- Base-class floor result used by witnesses: a blocking, unwalkable hit
with a downward-pointing normal. -/
def sampleFloorResult : FFindFloorResult :=
  { bBlockingHit := true, bWalkableFloor := false, floorDist := 12,
    hitResult := { bBlockingHit := true, bStartPenetrating := false,
                   impactNormal := ⟨0, 0, -1⟩, normal := ⟨0, 0, -1⟩ } }

theorem FindFloor_inverted_normal_flip_witness :
    fixInvertedNormal sampleIsWalkable sampleFloorResult =
      { sampleFloorResult with
          hitResult := flipHitNormals sampleFloorResult.hitResult,
          bWalkableFloor := sampleIsWalkable (flipHitNormals sampleFloorResult.hitResult) } ∧
    (flipHitNormals sampleFloorResult.hitResult).impactNormal =
      -sampleFloorResult.hitResult.impactNormal ∧
    (flipHitNormals sampleFloorResult.hitResult).normal =
      -sampleFloorResult.hitResult.normal ∧
    ∀ (superIsValidLandingSpot : FVector → FHitResult → Bool)
      (lineTrace : TraceOracle) (capsuleLocation : FVector)
      (capsuleHalfHeight : ℚ) (hit : FHitResult),
      hit.bBlockingHit = true → hit.bStartPenetrating = false →
      hit.impactNormal.z < -KINDA_SMALL_NUMBER →
      VCIsValidLandingSpot sampleIsWalkable superIsValidLandingSpot lineTrace
          capsuleLocation capsuleHalfHeight hit =
        superIsValidLandingSpot capsuleLocation (flipHitNormals hit) :=
  FindFloor_inverted_normal_flip sampleIsWalkable sampleFloorResult rfl rfl
    (by norm_num [sampleFloorResult, KINDA_SMALL_NUMBER])

/-- C4 (amended): when the floor result is still a blocking but unwalkable hit
after the inverted-normal fix, a downward line trace runs from the capsule
location to capsule half-height plus a 50-unit margin below; if it hits and
its (possibly flipped) normal is walkable, the floor result's normals are
overwritten with the line-trace normals and `bWalkableFloor` is set true;
otherwise the fallback leaves the floor result unchanged (i.e. exactly as the
inverted-normal step left it).  `IsValidLandingSpot` applies the same
line-trace fallback for unwalkable non-penetrating hits. -/
theorem FindFloor_line_trace_fallback (isWalkable : FHitResult → Bool)
    (lineTrace : TraceOracle) (capsuleLocation : FVector) (capsuleHalfHeight : ℚ)
    (r : FFindFloorResult)
    (h1 : r.bWalkableFloor = false) (h2 : r.bBlockingHit = true) :
    (lineTrace capsuleLocation
        (capsuleLocation - ⟨0, 0, capsuleHalfHeight + FloorTraceMargin⟩) = none →
      lineTraceFallback isWalkable lineTrace capsuleLocation capsuleHalfHeight r = r) ∧
    (∀ rawHit : FHitResult,
      lineTrace capsuleLocation
          (capsuleLocation - ⟨0, 0, capsuleHalfHeight + FloorTraceMargin⟩) = some rawHit →
      (isWalkable (fixTraceHit rawHit) = true →
        lineTraceFallback isWalkable lineTrace capsuleLocation capsuleHalfHeight r =
          { r with
            hitResult := { r.hitResult with
              impactNormal := (fixTraceHit rawHit).impactNormal,
              normal := (fixTraceHit rawHit).normal },
            bWalkableFloor := true }) ∧
      (isWalkable (fixTraceHit rawHit) = false →
        lineTraceFallback isWalkable lineTrace capsuleLocation capsuleHalfHeight r = r)) ∧
    (∀ (superIsValidLandingSpot : FVector → FHitResult → Bool) (hit : FHitResult),
      hit.bBlockingHit = true → hit.bStartPenetrating = false →
      ¬ hit.impactNormal.z < -KINDA_SMALL_NUMBER → isWalkable hit = false →
      (lineTrace capsuleLocation (capsuleLocation - ⟨0, 0, capsuleHalfHeight + 50⟩) = none →
        VCIsValidLandingSpot isWalkable superIsValidLandingSpot lineTrace
            capsuleLocation capsuleHalfHeight hit =
          superIsValidLandingSpot capsuleLocation hit) ∧
      (∀ rawHit : FHitResult,
        lineTrace capsuleLocation (capsuleLocation - ⟨0, 0, capsuleHalfHeight + 50⟩) =
            some rawHit →
        (isWalkable (fixTraceHit rawHit) = true →
          VCIsValidLandingSpot isWalkable superIsValidLandingSpot lineTrace
              capsuleLocation capsuleHalfHeight hit =
            superIsValidLandingSpot capsuleLocation
              { hit with impactNormal := (fixTraceHit rawHit).impactNormal,
                         normal := (fixTraceHit rawHit).normal }) ∧
        (isWalkable (fixTraceHit rawHit) = false →
          VCIsValidLandingSpot isWalkable superIsValidLandingSpot lineTrace
              capsuleLocation capsuleHalfHeight hit =
            superIsValidLandingSpot capsuleLocation hit))) := by
  refine ⟨?_, ?_, ?_⟩
  · intro htrace
    unfold lineTraceFallback
    rw [if_pos ⟨h1, h2⟩, htrace]
  · intro rawHit htrace
    constructor
    · intro hwalk
      unfold lineTraceFallback
      rw [if_pos ⟨h1, h2⟩, htrace]
      simp [hwalk]
    · intro hwalk
      unfold lineTraceFallback
      rw [if_pos ⟨h1, h2⟩, htrace]
      simp [hwalk]
  · intro superV hit hb hp hz hw
    constructor
    · intro htrace
      unfold VCIsValidLandingSpot
      rw [if_neg (by simp [hb]), if_neg (fun hc => hz hc.2), if_pos ⟨hp, hw⟩, htrace]
    · intro rawHit htrace
      constructor
      · intro hwalk
        unfold VCIsValidLandingSpot
        rw [if_neg (by simp [hb]), if_neg (fun hc => hz hc.2), if_pos ⟨hp, hw⟩, htrace]
        simp [hwalk]
      · intro hwalk
        unfold VCIsValidLandingSpot
        rw [if_neg (by simp [hb]), if_neg (fun hc => hz hc.2), if_pos ⟨hp, hw⟩, htrace]
        simp [hwalk]

/-- A blocking, unwalkable base-class floor result whose inverted normal is
too steep to become walkable after flipping. -/
def steepFloorResult : FFindFloorResult :=
  { bBlockingHit := true, bWalkableFloor := false, floorDist := 7,
    hitResult := { bBlockingHit := true, bStartPenetrating := false,
                   impactNormal := ⟨0, 0, -3/10⟩, normal := ⟨0, 0, -3/10⟩ } }

/-- A line trace oracle that never hits. -/
def missTrace : TraceOracle := fun _ _ => none

/-- Counterexample to C4 as stated: with a blocking unwalkable base result
whose (still unwalkable after flipping) normal was inverted, and a line trace
that misses, the floor result is NOT left as the base class produced it — the
inverted-normal step already negated its normals. -/
theorem FindFloor_line_trace_fallback_cex :
    steepFloorResult.bWalkableFloor = false ∧ steepFloorResult.bBlockingHit = true ∧
    (fixInvertedNormal sampleIsWalkable steepFloorResult).bWalkableFloor = false ∧
    (fixInvertedNormal sampleIsWalkable steepFloorResult).bBlockingHit = true ∧
    missTrace (⟨0, 0, 0⟩ : FVector)
      ((⟨0, 0, 0⟩ : FVector) - ⟨0, 0, 90 + FloorTraceMargin⟩) = none ∧
    lineTraceFallback sampleIsWalkable missTrace ⟨0, 0, 0⟩ 90
        (fixInvertedNormal sampleIsWalkable steepFloorResult) ≠ steepFloorResult := by
  have hfix : fixInvertedNormal sampleIsWalkable steepFloorResult =
      { steepFloorResult with
          hitResult := flipHitNormals steepFloorResult.hitResult,
          bWalkableFloor :=
            sampleIsWalkable (flipHitNormals steepFloorResult.hitResult) } :=
    (FindFloor_inverted_normal_flip sampleIsWalkable steepFloorResult rfl rfl
      (by norm_num [steepFloorResult, KINDA_SMALL_NUMBER])).1
  have hwalk : sampleIsWalkable (flipHitNormals steepFloorResult.hitResult) = false := by
    norm_num [sampleIsWalkable, flipHitNormals, steepFloorResult]
  refine ⟨rfl, rfl, ?_, ?_, rfl, ?_⟩
  · rw [hfix]; exact hwalk
  · rw [hfix]; rfl
  · rw [hfix]
    intro hcon
    have hne := (FindFloor_line_trace_fallback sampleIsWalkable missTrace ⟨0, 0, 0⟩ 90
        { steepFloorResult with
            hitResult := flipHitNormals steepFloorResult.hitResult,
            bWalkableFloor := sampleIsWalkable (flipHitNormals steepFloorResult.hitResult) }
        (by rw [hwalk]) rfl).1 rfl
    rw [hne] at hcon
    have := congrArg (fun fr => fr.hitResult.impactNormal.z) hcon
    norm_num [flipHitNormals, steepFloorResult] at this

theorem FindFloor_line_trace_fallback_witness :
    lineTraceFallback sampleIsWalkable missTrace ⟨0, 0, 0⟩ 90 steepFloorResult =
      steepFloorResult :=
  (FindFloor_line_trace_fallback sampleIsWalkable missTrace ⟨0, 0, 0⟩ 90
    steepFloorResult rfl rfl).1 rfl

/-- C5: the grace logic of `FindFloor` synthesizes a walkable floor only while
the grace timer is positive; with an expired timer a fresh grant requires both
a real floor within `RecentGroundedWindow` and a grace trace hit within
`GraceHeightThreshold`; a grant initializes the timer to `FloorGraceDuration`;
a synthesized floor has `FloorDist = 0` and `bBlockingHit = true`; over a real
ledge (expired timer, no nearby geometry) the result is left unwalkable so
the character falls; the timer decays by `DeltaTime` each tick and
`TimeSinceLastRealFloor` accumulates each tick and resets when a real floor
is found. -/
theorem FindFloor_grace_only_when_recent_and_shallow
    (p : FloorGraceParams) (lineTrace : TraceOracle) (capsuleLocation : FVector)
    (capsuleHalfHeight : ℚ) (st : FloorGraceState) (r : FFindFloorResult)
    (hnofloor : r.bWalkableFloor = false) :
    ((floorGraceStep p lineTrace capsuleLocation capsuleHalfHeight true st r).1.bWalkableFloor
        = true →
      (floorGraceStep p lineTrace capsuleLocation capsuleHalfHeight true st
        r).2.floorGraceTimer > 0) ∧
    (st.floorGraceTimer ≤ 0 →
      (floorGraceStep p lineTrace capsuleLocation capsuleHalfHeight true st
          r).1.bWalkableFloor = true →
      st.timeSinceLastRealFloor < p.recentGroundedWindow ∧
        graceTraceHits p lineTrace capsuleLocation capsuleHalfHeight = true) ∧
    (graceGranted p lineTrace capsuleLocation capsuleHalfHeight true st = true →
      (floorGraceStep p lineTrace capsuleLocation capsuleHalfHeight true st
        r).2.floorGraceTimer = p.floorGraceDuration) ∧
    ((floorGraceStep p lineTrace capsuleLocation capsuleHalfHeight true st r).1.bWalkableFloor
        = true →
      (floorGraceStep p lineTrace capsuleLocation capsuleHalfHeight true st r).1.floorDist
          = 0 ∧
        (floorGraceStep p lineTrace capsuleLocation capsuleHalfHeight true st
          r).1.bBlockingHit = true) ∧
    (st.floorGraceTimer ≤ 0 →
      graceTraceHits p lineTrace capsuleLocation capsuleHalfHeight = false →
      (floorGraceStep p lineTrace capsuleLocation capsuleHalfHeight true st r).1 = r) ∧
    (graceGranted p lineTrace capsuleLocation capsuleHalfHeight true st = false →
      ((floorGraceStep p lineTrace capsuleLocation capsuleHalfHeight true st
          r).1.bWalkableFloor = true ↔ st.floorGraceTimer > 0)) ∧
    (∀ (deltaTime : ℚ) (s : FloorGraceState),
      (tickFloorTimers deltaTime s).floorGraceTimer =
          (if s.floorGraceTimer > 0 then s.floorGraceTimer - deltaTime
            else s.floorGraceTimer) ∧
        (tickFloorTimers deltaTime s).timeSinceLastRealFloor =
          s.timeSinceLastRealFloor + deltaTime) ∧
    (∀ realFloor : FFindFloorResult, realFloor.bWalkableFloor = true →
      (floorGraceStep p lineTrace capsuleLocation capsuleHalfHeight true st
          realFloor).2.timeSinceLastRealFloor = 0 ∧
        (floorGraceStep p lineTrace capsuleLocation capsuleHalfHeight true st
          realFloor).1 = realFloor) := by
  refine ⟨?_, ?_, ?_, ?_, ?_, ?_, ?_, ?_⟩
  · intro hsyn
    unfold floorGraceStep at hsyn ⊢
    rw [if_neg (by simp [hnofloor])] at hsyn ⊢
    by_cases hg : graceGranted p lineTrace capsuleLocation capsuleHalfHeight true st = true
    · simp only [hg, if_pos] at hsyn ⊢
      by_cases ht : p.floorGraceDuration > 0
      · simpa using ht
      · simp only [if_neg ht] at hsyn
        exact absurd hsyn (by simp [hnofloor])
    · simp only [if_neg hg] at hsyn ⊢
      by_cases ht : st.floorGraceTimer > 0
      · simpa using ht
      · simp only [if_neg ht] at hsyn
        exact absurd hsyn (by simp [hnofloor])
  · intro hexp hsyn
    unfold floorGraceStep at hsyn
    rw [if_neg (by simp [hnofloor])] at hsyn
    by_cases hg : graceGranted p lineTrace capsuleLocation capsuleHalfHeight true st = true
    · unfold graceGranted at hg
      by_cases hc : st.timeSinceLastRealFloor < p.recentGroundedWindow ∧
          st.floorGraceTimer ≤ 0
      · rw [if_pos hc] at hg
        simp at hg
        exact ⟨hc.1, hg⟩
      · rw [if_neg hc] at hg
        exact absurd hg (by simp)
    · simp only [if_neg hg, if_neg (not_lt.mpr hexp)] at hsyn
      exact absurd hsyn (by simp [hnofloor])
  · intro hg
    unfold floorGraceStep
    rw [if_neg (by simp [hnofloor])]
    simp [hg]
  · intro hsyn
    unfold floorGraceStep at hsyn ⊢
    rw [if_neg (by simp [hnofloor])] at hsyn ⊢
    by_cases ht : (if graceGranted p lineTrace capsuleLocation capsuleHalfHeight true st =
        true then p.floorGraceDuration else st.floorGraceTimer) > 0
    · simp [ht]
    · simp only [if_neg ht] at hsyn
      exact absurd hsyn (by simp [hnofloor])
  · intro hexp htrace
    have hg : graceGranted p lineTrace capsuleLocation capsuleHalfHeight true st = false := by
      unfold graceGranted
      by_cases hc : st.timeSinceLastRealFloor < p.recentGroundedWindow ∧
          st.floorGraceTimer ≤ 0
      · rw [if_pos hc]; simpa using htrace
      · rw [if_neg hc]
    unfold floorGraceStep
    rw [if_neg (by simp [hnofloor])]
    simp [hg, not_lt.mpr hexp]
  · intro hg
    unfold floorGraceStep
    rw [if_neg (by simp [hnofloor])]
    simp only [hg]
    by_cases ht : st.floorGraceTimer > 0
    · simp [ht]
    · simp [ht, hnofloor]
  · intro deltaTime s
    exact ⟨rfl, rfl⟩
  · intro realFloor hreal
    unfold floorGraceStep
    rw [if_pos hreal]
    exact ⟨rfl, rfl⟩

/-- Grace tuning values used by witnesses. -/
def sampleGraceParams : FloorGraceParams := ⟨1/2, 120, 3/20⟩

/-- Grace state used by witnesses: expired timer, recently grounded. -/
def sampleGraceState : FloorGraceState := ⟨0, 1/5⟩

theorem FindFloor_grace_only_when_recent_and_shallow_witness :
    (floorGraceStep sampleGraceParams missTrace ⟨0, 0, 0⟩ 90 true sampleGraceState
      steepFloorResult).1 = steepFloorResult :=
  ((FindFloor_grace_only_when_recent_and_shallow sampleGraceParams missTrace ⟨0, 0, 0⟩ 90
      sampleGraceState steepFloorResult rfl).2.2.2.2.1) (le_refl 0) rfl

-- ---------------------------------------------------------------------------
-- Voxel terrain context (VCTypes.h, VCVoxelNavigationHelper)
-- ---------------------------------------------------------------------------

/-- `EVoxelSurfaceType` from `VCTypes.h`. -/
inductive EVoxelSurfaceType where
  | Default | Stone | Dirt | Grass | Sand | Snow | Ice | Mud | Wood | Metal | Water
  deriving DecidableEq, Repr

/-- Engine `FIntVector` (chunk coordinates). -/
structure FIntVector where
  x : ℤ
  y : ℤ
  z : ℤ
  deriving DecidableEq, Repr

/-- `FVoxelTerrainContext` from `VCTypes.h`, with its default-constructed
field values. -/
structure FVoxelTerrainContext where
  surfaceType : EVoxelSurfaceType := .Default
  voxelMaterialID : ℕ := 0
  surfaceHardness : ℚ := 1
  frictionMultiplier : ℚ := 1
  bIsUnderwater : Bool := false
  waterDepth : ℚ := 0
  currentChunkCoord : FIntVector := ⟨0, 0, 0⟩
  deriving DecidableEq, Repr

/-- `UVCMovementComponent::MaterialIDToSurfaceType`. -/
def MaterialIDToSurfaceType (materialID : ℕ) : EVoxelSurfaceType :=
  match materialID with
  | 0 => .Grass
  | 1 => .Dirt
  | 2 => .Stone
  | 3 => .Sand
  | 4 => .Snow
  | 5 => .Sand
  | 6 => .Ice
  | 10 => .Stone
  | 11 => .Metal
  | 12 => .Metal
  | 13 => .Metal
  | 14 => .Stone
  | 20 => .Wood
  | 21 => .Grass
  | _ => .Default

/-- `UVCMovementComponent::GetSurfaceFriction`. -/
def GetSurfaceFriction : EVoxelSurfaceType → ℚ
  | .Ice => 2/10
  | .Mud => 6/10
  | .Sand => 8/10
  | .Snow => 7/10
  | .Grass => 1
  | .Dirt => 9/10
  | .Stone => 1
  | .Wood => 1
  | .Metal => 9/10
  | .Water => 5/10
  | _ => 1

/-- The surface-hardness switch inside
`FVCVoxelNavigationHelper::QueryTerrainContext`. -/
def querySurfaceHardness : EVoxelSurfaceType → ℚ
  | .Stone => 1
  | .Metal => 1
  | .Dirt => 1/2
  | .Grass => 1/2
  | .Sand => 3/10
  | .Snow => 3/10
  | .Mud => 2/10
  | _ => 1

/-- `FVoxelData` (external VoxelCore type), restricted to the `MaterialID`
field this plugin reads. -/
structure FVoxelData where
  materialID : ℕ
  deriving DecidableEq, Repr

/-- `UVoxelWorldConfiguration` (external VoxelCore type), restricted to the
fields this plugin reads. -/
structure UVoxelWorldConfiguration where
  bEnableWaterLevel : Bool
  waterLevel : ℚ
  worldOrigin : FVector
  chunkSize : ℤ
  voxelSize : ℚ

/-- `UVoxelChunkManager` (external VoxelCore type): its configuration, if any,
and its voxel sampling query. -/
structure UVoxelChunkManager where
  configuration : Option UVoxelWorldConfiguration
  getVoxelAtWorldPosition : FVector → FVoxelData

/-- A world as seen by `FVCVoxelNavigationHelper::FindChunkManager`: either an
initialized chunk manager was found or none. -/
structure VoxelWorld where
  chunkManager : Option UVoxelChunkManager

/-- `FVCVoxelNavigationHelper::QueryTerrainContext`.  `worldToChunk` abstracts
the external `FVoxelCoordinates::WorldToChunk(RelativePos, ChunkSize,
VoxelSize)`. -/
def QueryTerrainContext (worldToChunk : FVector → ℤ → ℚ → FIntVector)
    (world : VoxelWorld) (location : FVector) : FVoxelTerrainContext :=
  match world.chunkManager with
  | none => {}
  | some chunkMgr =>
    match chunkMgr.configuration with
    | none => {}
    | some config =>
      let voxelAtFeet := chunkMgr.getVoxelAtWorldPosition (location - ⟨0, 0, 10⟩)
      let surfaceType := MaterialIDToSurfaceType voxelAtFeet.materialID
      let waterSurface := config.waterLevel + config.worldOrigin.z
      { voxelMaterialID := voxelAtFeet.materialID,
        surfaceType := surfaceType,
        frictionMultiplier := GetSurfaceFriction surfaceType,
        surfaceHardness := querySurfaceHardness surfaceType,
        bIsUnderwater := decide (config.bEnableWaterLevel = true ∧ location.z < waterSurface),
        waterDepth :=
          if config.bEnableWaterLevel = true ∧ location.z < waterSurface then
            waterSurface - location.z
          else 0,
        currentChunkCoord :=
          worldToChunk (location - config.worldOrigin) config.chunkSize config.voxelSize }

/-- `FVCVoxelNavigationHelper::IsPositionUnderwater`, returning the flag and
the `OutWaterDepth` out-parameter. -/
def IsPositionUnderwater (world : VoxelWorld) (location : FVector) : Bool × ℚ :=
  match world.chunkManager with
  | none => (false, 0)
  | some chunkMgr =>
    match chunkMgr.configuration with
    | none => (false, 0)
    | some config =>
      if config.bEnableWaterLevel = false then (false, 0)
      else
        if location.z < config.waterLevel + config.worldOrigin.z then
          (true, config.waterLevel + config.worldOrigin.z - location.z)
        else (false, 0)

-- ---------------------------------------------------------------------------
-- Swimming transitions (UVCMovementComponent::UpdateVoxelTerrainContext /
-- TickComponent)
-- ---------------------------------------------------------------------------

/-- Movement modes relevant to the swimming state machine (engine
`EMovementMode`). -/
inductive EMovementMode where
  | walking | falling | swimming | flying | custom
  deriving DecidableEq, Repr

/-- Tuning values and captured bases read by the swimming transition. -/
structure SwimParams where
  swimmingEntryDepth : ℚ
  swimmingExitDepth : ℚ
  baseMaxWalkSpeed : ℚ
  baseMaxAcceleration : ℚ
  voxelSwimmingSpeedMultiplier : ℚ
  gasSpeedMultiplier : ℚ
  swimmingBuoyancy : ℚ
  swimmingBrakingDeceleration : ℚ
  swimmingMaxAcceleration : ℚ
  deriving DecidableEq, Repr

/-- The movement-component state mutated by the swimming transition. -/
structure SwimState where
  movementMode : EMovementMode
  maxSwimSpeed : ℚ
  buoyancy : ℚ
  brakingDecelerationSwimming : ℚ
  maxAcceleration : ℚ
  deriving DecidableEq, Repr

/-- The "Swimming mode transition" block at the end of
`UpdateVoxelTerrainContext`: enter `MOVE_Swimming` when underwater at depth
`≥ SwimmingEntryDepth` and not already swimming (also configuring the swim
parameters); exit back to `MOVE_Walking` (restoring `MaxAcceleration`) when
swimming and depth `< SwimmingExitDepth`; otherwise unchanged. -/
def updateSwimmingTransition (p : SwimParams) (ctx : FVoxelTerrainContext)
    (s : SwimState) : SwimState :=
  if ctx.bIsUnderwater = true ∧ ctx.waterDepth ≥ p.swimmingEntryDepth then
    if s.movementMode ≠ .swimming then
      { s with movementMode := .swimming,
               maxSwimSpeed := p.baseMaxWalkSpeed * p.voxelSwimmingSpeedMultiplier *
                 p.gasSpeedMultiplier,
               buoyancy := p.swimmingBuoyancy,
               brakingDecelerationSwimming := p.swimmingBrakingDeceleration,
               maxAcceleration := p.swimmingMaxAcceleration }
    else s
  else if s.movementMode = .swimming ∧ ctx.waterDepth < p.swimmingExitDepth then
    { s with movementMode := .walking, maxAcceleration := p.baseMaxAcceleration }
  else s

/-- The post-`Super::TickComponent` re-entry check in `TickComponent`: if the
engine kicked the component out of swimming while the cached context still
reports underwater at depth `≥ SwimmingExitDepth`, re-enter `MOVE_Swimming`. -/
def tickSwimmingReentry (p : SwimParams) (ctx : FVoxelTerrainContext)
    (s : SwimState) : SwimState :=
  if s.movementMode ≠ .swimming ∧ ctx.bIsUnderwater = true ∧
      ctx.waterDepth ≥ p.swimmingExitDepth then
    { s with movementMode := .swimming }
  else s

-- ---------------------------------------------------------------------------
-- Terrain cache timing (TickComponent / OnVoxelChunkModified)
-- ---------------------------------------------------------------------------

/-- The terrain-cache bookkeeping of `UVCMovementComponent`
(`TerrainContextCacheTimer`, `CachedTerrainContext`). -/
structure TerrainCacheState where
  terrainContextCacheTimer : ℚ
  cachedTerrainContext : FVoxelTerrainContext
  deriving DecidableEq, Repr

/-- The "Refresh terrain cache periodically" block of `TickComponent`:
accumulate the timer, and when it reaches `TerrainCacheDuration` reset it to
`0` and re-query the terrain context (`freshContext` stands for the value
`UpdateVoxelTerrainContext` caches).  The boolean reports whether the cache
was re-queried. -/
def terrainCacheTick (terrainCacheDuration deltaTime : ℚ)
    (freshContext : FVoxelTerrainContext) (s : TerrainCacheState) :
    TerrainCacheState × Bool :=
  if s.terrainContextCacheTimer + deltaTime ≥ terrainCacheDuration then
    ({ terrainContextCacheTimer := 0, cachedTerrainContext := freshContext }, true)
  else
    ({ s with terrainContextCacheTimer := s.terrainContextCacheTimer + deltaTime }, false)

/-- `UVCMovementComponent::OnVoxelChunkModified`: an edit to the chunk the
character occupies forces the cache timer to `TerrainCacheDuration` (refresh
on the very next tick); edits to other chunks change nothing. -/
def OnVoxelChunkModified (terrainCacheDuration : ℚ) (chunkCoord : FIntVector)
    (s : TerrainCacheState) : TerrainCacheState :=
  if chunkCoord = s.cachedTerrainContext.currentChunkCoord then
    { s with terrainContextCacheTimer := terrainCacheDuration }
  else s

/-- C6: swimming transitions form a hysteresis state machine.  With
`SwimmingExitDepth ≤ SwimmingEntryDepth`: `UpdateVoxelTerrainContext` switches
to `MOVE_Swimming` exactly when the context is underwater at depth
`≥ SwimmingEntryDepth` and the component is not already swimming, switches a
swimming component back to `MOVE_Walking` (restoring `MaxAcceleration` to its
base value) exactly when depth `< SwimmingExitDepth`, and otherwise leaves the
state unchanged; and each tick re-enters `MOVE_Swimming` if the engine exited
swimming while still underwater at depth `≥ SwimmingExitDepth`. -/
theorem swimming_transition_hysteresis (p : SwimParams) (ctx : FVoxelTerrainContext)
    (s : SwimState) (hex : p.swimmingExitDepth ≤ p.swimmingEntryDepth) :
    (s.movementMode ≠ .swimming → ctx.bIsUnderwater = true →
      ctx.waterDepth ≥ p.swimmingEntryDepth →
      (updateSwimmingTransition p ctx s).movementMode = .swimming) ∧
    ((updateSwimmingTransition p ctx s).movementMode = .swimming →
      s.movementMode ≠ .swimming →
      ctx.bIsUnderwater = true ∧ ctx.waterDepth ≥ p.swimmingEntryDepth) ∧
    (s.movementMode = .swimming → ctx.waterDepth < p.swimmingExitDepth →
      (updateSwimmingTransition p ctx s).movementMode = .walking ∧
        (updateSwimmingTransition p ctx s).maxAcceleration = p.baseMaxAcceleration) ∧
    (s.movementMode = .swimming →
      (updateSwimmingTransition p ctx s).movementMode = .walking →
      ctx.waterDepth < p.swimmingExitDepth) ∧
    (¬ (ctx.bIsUnderwater = true ∧ ctx.waterDepth ≥ p.swimmingEntryDepth ∧
          s.movementMode ≠ .swimming) →
      ¬ (s.movementMode = .swimming ∧ ctx.waterDepth < p.swimmingExitDepth) →
      updateSwimmingTransition p ctx s = s) ∧
    (s.movementMode ≠ .swimming → ctx.bIsUnderwater = true →
      ctx.waterDepth ≥ p.swimmingExitDepth →
      (tickSwimmingReentry p ctx s).movementMode = .swimming) := by
  refine ⟨?_, ?_, ?_, ?_, ?_, ?_⟩
  · intro hns hu hd
    unfold updateSwimmingTransition
    rw [if_pos ⟨hu, hd⟩, if_pos hns]
  · intro hres hns
    unfold updateSwimmingTransition at hres
    by_cases hc : ctx.bIsUnderwater = true ∧ ctx.waterDepth ≥ p.swimmingEntryDepth
    · exact hc
    · rw [if_neg hc] at hres
      by_cases hc2 : s.movementMode = .swimming ∧ ctx.waterDepth < p.swimmingExitDepth
      · exact absurd hc2.1 hns
      · rw [if_neg hc2] at hres
        exact absurd hres hns
  · intro hswim hshallow
    unfold updateSwimmingTransition
    rw [if_neg (fun hc => absurd hc.2 (not_le.mpr (lt_of_lt_of_le hshallow hex))),
      if_pos ⟨hswim, hshallow⟩]
    exact ⟨rfl, rfl⟩
  · intro hswim hres
    unfold updateSwimmingTransition at hres
    by_cases hc : ctx.bIsUnderwater = true ∧ ctx.waterDepth ≥ p.swimmingEntryDepth
    · rw [if_pos hc, if_neg (by simp [hswim])] at hres
      rw [hswim] at hres
      exact absurd hres (by simp)
    · rw [if_neg hc] at hres
      by_cases hc2 : s.movementMode = .swimming ∧ ctx.waterDepth < p.swimmingExitDepth
      · exact hc2.2
      · rw [if_neg hc2] at hres
        rw [hswim] at hres
        exact absurd hres (by simp)
  · intro hn1 hn2
    unfold updateSwimmingTransition
    by_cases hc : ctx.bIsUnderwater = true ∧ ctx.waterDepth ≥ p.swimmingEntryDepth
    · rw [if_pos hc]
      have hsw : s.movementMode = .swimming := by
        by_contra hns
        exact hn1 ⟨hc.1, hc.2, hns⟩
      rw [if_neg (by simp [hsw])]
    · rw [if_neg hc, if_neg hn2]
  · intro hns hu hd
    unfold tickSwimmingReentry
    rw [if_pos ⟨hns, hu, hd⟩]

/-- Swim tuning used by witnesses (exit depth below entry depth). -/
def sampleSwimParams : SwimParams := ⟨100, 60, 600, 2048, 6/10, 1, 9/10, 600, 1024⟩

/-- An underwater terrain context used by witnesses. -/
def sampleSwimCtx : FVoxelTerrainContext :=
  { bIsUnderwater := true, waterDepth := 150 }

/-- A walking movement state used by witnesses. -/
def sampleSwimState : SwimState := ⟨.walking, 0, 1, 600, 2048⟩

theorem swimming_transition_hysteresis_witness :
    (updateSwimmingTransition sampleSwimParams sampleSwimCtx
      sampleSwimState).movementMode = .swimming :=
  (swimming_transition_hysteresis sampleSwimParams sampleSwimCtx sampleSwimState
      (by norm_num [sampleSwimParams])).1
    (by decide) rfl (by norm_num [sampleSwimCtx, sampleSwimParams])

/-- C7: the terrain context is re-queried exactly when the accumulated cache
timer reaches `TerrainCacheDuration` (resetting the timer to `0`); an edit to
the chunk the character occupies forces the timer to `TerrainCacheDuration`
so the cache refreshes on the very next tick, while an edit to any other
chunk leaves the cache state unchanged. -/
theorem terrain_cache_requery_timing (terrainCacheDuration deltaTime : ℚ)
    (freshContext : FVoxelTerrainContext) (s : TerrainCacheState)
    (chunkCoord : FIntVector) :
    ((terrainCacheTick terrainCacheDuration deltaTime freshContext s).2 = true ↔
      s.terrainContextCacheTimer + deltaTime ≥ terrainCacheDuration) ∧
    (s.terrainContextCacheTimer + deltaTime ≥ terrainCacheDuration →
      (terrainCacheTick terrainCacheDuration deltaTime freshContext
          s).1.terrainContextCacheTimer = 0 ∧
      (terrainCacheTick terrainCacheDuration deltaTime freshContext
        s).1.cachedTerrainContext = freshContext) ∧
    (¬ s.terrainContextCacheTimer + deltaTime ≥ terrainCacheDuration →
      (terrainCacheTick terrainCacheDuration deltaTime freshContext
          s).1.cachedTerrainContext = s.cachedTerrainContext ∧
      (terrainCacheTick terrainCacheDuration deltaTime freshContext
        s).1.terrainContextCacheTimer = s.terrainContextCacheTimer + deltaTime) ∧
    (chunkCoord = s.cachedTerrainContext.currentChunkCoord →
      OnVoxelChunkModified terrainCacheDuration chunkCoord s =
        { s with terrainContextCacheTimer := terrainCacheDuration } ∧
      (0 ≤ deltaTime →
        (terrainCacheTick terrainCacheDuration deltaTime freshContext
          (OnVoxelChunkModified terrainCacheDuration chunkCoord s)).2 = true)) ∧
    (chunkCoord ≠ s.cachedTerrainContext.currentChunkCoord →
      OnVoxelChunkModified terrainCacheDuration chunkCoord s = s) := by
  refine ⟨?_, ?_, ?_, ?_, ?_⟩
  · unfold terrainCacheTick
    by_cases hc : s.terrainContextCacheTimer + deltaTime ≥ terrainCacheDuration
    · simp [hc]
    · simp [hc]
  · intro hc
    unfold terrainCacheTick
    rw [if_pos hc]
    exact ⟨rfl, rfl⟩
  · intro hc
    unfold terrainCacheTick
    rw [if_neg hc]
    exact ⟨rfl, rfl⟩
  · intro hcoord
    constructor
    · unfold OnVoxelChunkModified
      rw [if_pos hcoord]
    · intro hdt
      unfold OnVoxelChunkModified terrainCacheTick
      rw [if_pos hcoord]
      rw [if_pos (by simp; linarith)]
  · intro hcoord
    unfold OnVoxelChunkModified
    rw [if_neg hcoord]

theorem terrain_cache_requery_timing_witness :
    OnVoxelChunkModified (1/10) ⟨0, 0, 0⟩
        { terrainContextCacheTimer := 0, cachedTerrainContext := {} } =
      { terrainContextCacheTimer := 1/10, cachedTerrainContext := {} } ∧
    (0 ≤ (1/50 : ℚ) →
      (terrainCacheTick (1/10) (1/50) {}
        (OnVoxelChunkModified (1/10) ⟨0, 0, 0⟩
          { terrainContextCacheTimer := 0, cachedTerrainContext := {} })).2 = true) :=
  (terrain_cache_requery_timing (1/10) (1/50) {}
    { terrainContextCacheTimer := 0, cachedTerrainContext := {} } ⟨0, 0, 0⟩).2.2.2.1 rfl

/-- C8: `QueryTerrainContext` reports underwater with
`WaterDepth = (WaterLevel + WorldOrigin.Z) - Location.Z` exactly when an
initialized chunk manager with a configuration exists, water is enabled, and
`Location.Z` is below the water surface; in every other case underwater is
false and the depth is `0`, and with no initialized chunk manager or no
configuration a default-constructed context is returned.
`IsPositionUnderwater` computes the same predicate and depth. -/
theorem QueryTerrainContext_none (worldToChunk : FVector → ℤ → ℚ → FIntVector)
    (world : VoxelWorld) (location : FVector) (hnone : world.chunkManager = none) :
    QueryTerrainContext worldToChunk world location = {} := by
  unfold QueryTerrainContext
  rw [hnone]

theorem QueryTerrainContext_no_config (worldToChunk : FVector → ℤ → ℚ → FIntVector)
    (world : VoxelWorld) (location : FVector) (chunkMgr : UVoxelChunkManager)
    (hmgr : world.chunkManager = some chunkMgr)
    (hnone : chunkMgr.configuration = none) :
    QueryTerrainContext worldToChunk world location = {} := by
  unfold QueryTerrainContext
  split
  · rfl
  · rename_i mgr heq
    rw [hmgr] at heq
    injection heq with heq'
    subst heq'
    split
    · rfl
    · rename_i cfg hceq
      rw [hnone] at hceq
      cases hceq

theorem QueryTerrainContext_some_some (worldToChunk : FVector → ℤ → ℚ → FIntVector)
    (world : VoxelWorld) (location : FVector) (chunkMgr : UVoxelChunkManager)
    (config : UVoxelWorldConfiguration)
    (hmgr : world.chunkManager = some chunkMgr)
    (hcfg : chunkMgr.configuration = some config) :
    QueryTerrainContext worldToChunk world location =
      { voxelMaterialID :=
          (chunkMgr.getVoxelAtWorldPosition (location - ⟨0, 0, 10⟩)).materialID,
        surfaceType := MaterialIDToSurfaceType
          (chunkMgr.getVoxelAtWorldPosition (location - ⟨0, 0, 10⟩)).materialID,
        frictionMultiplier := GetSurfaceFriction (MaterialIDToSurfaceType
          (chunkMgr.getVoxelAtWorldPosition (location - ⟨0, 0, 10⟩)).materialID),
        surfaceHardness := querySurfaceHardness (MaterialIDToSurfaceType
          (chunkMgr.getVoxelAtWorldPosition (location - ⟨0, 0, 10⟩)).materialID),
        bIsUnderwater := decide (config.bEnableWaterLevel = true ∧
          location.z < config.waterLevel + config.worldOrigin.z),
        waterDepth :=
          if config.bEnableWaterLevel = true ∧
              location.z < config.waterLevel + config.worldOrigin.z then
            config.waterLevel + config.worldOrigin.z - location.z
          else 0,
        currentChunkCoord :=
          worldToChunk (location - config.worldOrigin) config.chunkSize
            config.voxelSize } := by
  unfold QueryTerrainContext
  split
  · rename_i heq
    rw [hmgr] at heq
    cases heq
  · rename_i mgr heq
    rw [hmgr] at heq
    injection heq with heq'
    subst heq'
    split
    · rename_i hceq
      rw [hcfg] at hceq
      cases hceq
    · rename_i cfg hceq
      rw [hcfg] at hceq
      injection hceq with hceq'
      subst hceq'
      rfl

theorem IsPositionUnderwater_some_some (world : VoxelWorld) (location : FVector)
    (chunkMgr : UVoxelChunkManager) (config : UVoxelWorldConfiguration)
    (hmgr : world.chunkManager = some chunkMgr)
    (hcfg : chunkMgr.configuration = some config) :
    IsPositionUnderwater world location =
      (if config.bEnableWaterLevel = false then (false, 0)
        else if location.z < config.waterLevel + config.worldOrigin.z then
          (true, config.waterLevel + config.worldOrigin.z - location.z)
        else (false, 0)) := by
  unfold IsPositionUnderwater
  split
  · rename_i heq
    rw [hmgr] at heq
    cases heq
  · rename_i mgr heq
    rw [hmgr] at heq
    injection heq with heq'
    subst heq'
    split
    · rename_i hceq
      rw [hcfg] at hceq
      cases hceq
    · rename_i cfg hceq
      rw [hcfg] at hceq
      injection hceq with hceq'
      subst hceq'
      rfl

theorem IsPositionUnderwater_no_manager (world : VoxelWorld) (location : FVector)
    (hnone : world.chunkManager = none) :
    IsPositionUnderwater world location = (false, 0) := by
  unfold IsPositionUnderwater
  rw [hnone]

theorem IsPositionUnderwater_no_config (world : VoxelWorld) (location : FVector)
    (chunkMgr : UVoxelChunkManager) (hmgr : world.chunkManager = some chunkMgr)
    (hnone : chunkMgr.configuration = none) :
    IsPositionUnderwater world location = (false, 0) := by
  unfold IsPositionUnderwater
  split
  · rfl
  · rename_i mgr heq
    rw [hmgr] at heq
    injection heq with heq'
    subst heq'
    split
    · rfl
    · rename_i cfg hceq
      rw [hnone] at hceq
      cases hceq

theorem QueryTerrainContext_water (worldToChunk : FVector → ℤ → ℚ → FIntVector)
    (world : VoxelWorld) (location : FVector) :
    (world.chunkManager = none →
      QueryTerrainContext worldToChunk world location = {}) ∧
    (∀ chunkMgr : UVoxelChunkManager, world.chunkManager = some chunkMgr →
      chunkMgr.configuration = none →
      QueryTerrainContext worldToChunk world location = {}) ∧
    (∀ (chunkMgr : UVoxelChunkManager) (config : UVoxelWorldConfiguration),
      world.chunkManager = some chunkMgr → chunkMgr.configuration = some config →
      ((QueryTerrainContext worldToChunk world location).bIsUnderwater = true ↔
        (config.bEnableWaterLevel = true ∧
          location.z < config.waterLevel + config.worldOrigin.z)) ∧
      ((QueryTerrainContext worldToChunk world location).bIsUnderwater = true →
        (QueryTerrainContext worldToChunk world location).waterDepth =
          config.waterLevel + config.worldOrigin.z - location.z) ∧
      ((QueryTerrainContext worldToChunk world location).bIsUnderwater = false →
        (QueryTerrainContext worldToChunk world location).waterDepth = 0)) ∧
    IsPositionUnderwater world location =
      ((QueryTerrainContext worldToChunk world location).bIsUnderwater,
        (QueryTerrainContext worldToChunk world location).waterDepth) := by
  refine ⟨?_, ?_, ?_, ?_⟩
  · exact fun hnone => QueryTerrainContext_none worldToChunk world location hnone
  · exact fun chunkMgr hmgr hnone =>
      QueryTerrainContext_no_config worldToChunk world location chunkMgr hmgr hnone
  · intro chunkMgr config hmgr hcfg
    rw [QueryTerrainContext_some_some worldToChunk world location chunkMgr config hmgr hcfg]
    by_cases hc : config.bEnableWaterLevel = true ∧
        location.z < config.waterLevel + config.worldOrigin.z
    · simp [hc]
    · simp [hc]
  · cases hm : world.chunkManager with
    | none =>
      rw [IsPositionUnderwater_no_manager world location hm,
        QueryTerrainContext_none worldToChunk world location hm]
    | some chunkMgr =>
      cases hcfg : chunkMgr.configuration with
      | none =>
        rw [IsPositionUnderwater_no_config world location chunkMgr hm hcfg,
          QueryTerrainContext_no_config worldToChunk world location chunkMgr hm hcfg]
      | some config =>
        rw [IsPositionUnderwater_some_some world location chunkMgr config hm hcfg,
          QueryTerrainContext_some_some worldToChunk world location chunkMgr config hm hcfg]
        by_cases hw : config.bEnableWaterLevel = false
        · have hnc : ¬ (config.bEnableWaterLevel = true ∧
              location.z < config.waterLevel + config.worldOrigin.z) := by
            rw [hw]; simp
          simp [hw, hnc]
        · have hw' : config.bEnableWaterLevel = true := by
            cases hb : config.bEnableWaterLevel
            · exact absurd hb hw
            · rfl
          by_cases hz : location.z < config.waterLevel + config.worldOrigin.z
          · simp [hw, hw', hz]
          · simp [hw, hw', hz]

/-- A configured voxel world used by witnesses: water enabled at level 30
with world origin `(0, 0, 5)`. -/
def sampleVoxelWorld : VoxelWorld :=
  { chunkManager := some
      { configuration := some
          { bEnableWaterLevel := true, waterLevel := 30, worldOrigin := ⟨0, 0, 5⟩,
            chunkSize := 32, voxelSize := 100 },
        getVoxelAtWorldPosition := fun _ => ⟨3⟩ } }

/-- A chunk-coordinate function used by witnesses. -/
def sampleWorldToChunk : FVector → ℤ → ℚ → FIntVector := fun _ _ _ => ⟨0, 0, 0⟩

theorem QueryTerrainContext_water_witness :
    IsPositionUnderwater sampleVoxelWorld ⟨0, 0, 20⟩ =
      ((QueryTerrainContext sampleWorldToChunk sampleVoxelWorld ⟨0, 0, 20⟩).bIsUnderwater,
        (QueryTerrainContext sampleWorldToChunk sampleVoxelWorld ⟨0, 0, 20⟩).waterDepth) :=
  (QueryTerrainContext_water sampleWorldToChunk sampleVoxelWorld ⟨0, 0, 20⟩).2.2.2

-- ---------------------------------------------------------------------------
-- GAS attribute set (UVCCharacterAttributeSet)
-- ---------------------------------------------------------------------------

/-- The attributes of `UVCCharacterAttributeSet`. -/
inductive VCAttribute where
  | health | maxHealth | stamina | maxStamina | moveSpeedMultiplier
  | miningSpeed | interactionRange | incomingDamage
  deriving DecidableEq, Repr

/-- The attribute values of `UVCCharacterAttributeSet`. -/
structure VCCharacterAttributeSet where
  health : ℚ
  maxHealth : ℚ
  stamina : ℚ
  maxStamina : ℚ
  moveSpeedMultiplier : ℚ
  miningSpeed : ℚ
  interactionRange : ℚ
  incomingDamage : ℚ
  deriving DecidableEq, Repr

/-- The constructor's `Init...` values. -/
def initialAttributeSet : VCCharacterAttributeSet :=
  ⟨100, 100, 100, 100, 1, 1, 300, 0⟩

/-- `UVCCharacterAttributeSet::PreAttributeChange`: clamp an incoming Health
value to `[0, MaxHealth]`, Stamina to `[0, MaxStamina]`,
MoveSpeedMultiplier to `≥ 0`; other attributes pass through. -/
def PreAttributeChange (s : VCCharacterAttributeSet) (attr : VCAttribute)
    (newValue : ℚ) : ℚ :=
  match attr with
  | .health => FMathClamp newValue 0 s.maxHealth
  | .stamina => FMathClamp newValue 0 s.maxStamina
  | .moveSpeedMultiplier => FMathMax 0 newValue
  | _ => newValue

/-- An attribute change as the ability system applies it: the incoming value
passes through `PreAttributeChange` and is stored on the named attribute. -/
def applyAttributeChange (s : VCCharacterAttributeSet) (attr : VCAttribute)
    (newValue : ℚ) : VCCharacterAttributeSet :=
  match attr with
  | .health => { s with health := PreAttributeChange s .health newValue }
  | .maxHealth => { s with maxHealth := PreAttributeChange s .maxHealth newValue }
  | .stamina => { s with stamina := PreAttributeChange s .stamina newValue }
  | .maxStamina => { s with maxStamina := PreAttributeChange s .maxStamina newValue }
  | .moveSpeedMultiplier =>
      { s with moveSpeedMultiplier := PreAttributeChange s .moveSpeedMultiplier newValue }
  | .miningSpeed => { s with miningSpeed := PreAttributeChange s .miningSpeed newValue }
  | .interactionRange =>
      { s with interactionRange := PreAttributeChange s .interactionRange newValue }
  | .incomingDamage =>
      { s with incomingDamage := PreAttributeChange s .incomingDamage newValue }

/-- `UVCCharacterAttributeSet::PostGameplayEffectExecute` for an effect whose
evaluated attribute is `IncomingDamage`: capture the damage, reset the
meta-attribute to `0`, and when the damage is positive set Health to
`max(0, Health - damage)`. -/
def PostGameplayEffectExecute_IncomingDamage (s : VCCharacterAttributeSet) :
    VCCharacterAttributeSet :=
  if s.incomingDamage > 0 then
    { s with incomingDamage := 0, health := FMathMax 0 (s.health - s.incomingDamage) }
  else { s with incomingDamage := 0 }

/-- The claimed invariant: Health within `[0, MaxHealth]`, Stamina within
`[0, MaxStamina]`, MoveSpeedMultiplier at least `0`. -/
def AttrInvariant (s : VCCharacterAttributeSet) : Prop :=
  0 ≤ s.health ∧ s.health ≤ s.maxHealth ∧ 0 ≤ s.stamina ∧ s.stamina ≤ s.maxStamina ∧
    0 ≤ s.moveSpeedMultiplier

/-- Counterexample to C10 as stated: changing `MaxHealth` is an attribute
change, but `PreAttributeChange` does not re-clamp `Health` when `MaxHealth`
drops, so from the initial set (Health = MaxHealth = 100) lowering MaxHealth
to 50 leaves Health above MaxHealth — the invariant is not preserved across
every attribute change. -/
theorem PreAttributeChange_invariant_cex :
    AttrInvariant initialAttributeSet ∧
    (applyAttributeChange initialAttributeSet .maxHealth 50).health = 100 ∧
    (applyAttributeChange initialAttributeSet .maxHealth 50).maxHealth = 50 ∧
    ¬ AttrInvariant (applyAttributeChange initialAttributeSet .maxHealth 50) := by
  refine ⟨?_, rfl, rfl, ?_⟩
  · unfold AttrInvariant initialAttributeSet
    norm_num
  · intro hinv
    have h2 := hinv.2.1
    unfold applyAttributeChange PreAttributeChange initialAttributeSet at h2
    norm_num at h2

/-- C10 (amended): every change to Health itself is clamped to
`[0, MaxHealth]`, every change to Stamina to `[0, MaxStamina]`, and every
change to MoveSpeedMultiplier to `≥ 0`; the invariant is preserved by every
attribute change that does not lower MaxHealth below Health or MaxStamina
below Stamina (the set does not re-clamp dependents when a max attribute
drops); and after every gameplay-effect execution delivering IncomingDamage,
the meta-attribute is reset to `0` and, when the damage was positive, Health
becomes `max(0, Health - damage)`, never negative, with the invariant
preserved. -/
theorem AttributeSet_clamping_and_damage (s : VCCharacterAttributeSet)
    (hinv : AttrInvariant s) :
    (∀ v : ℚ, 0 ≤ (applyAttributeChange s .health v).health ∧
      (applyAttributeChange s .health v).health ≤ s.maxHealth) ∧
    (∀ v : ℚ, 0 ≤ (applyAttributeChange s .stamina v).stamina ∧
      (applyAttributeChange s .stamina v).stamina ≤ s.maxStamina) ∧
    (∀ v : ℚ, 0 ≤ (applyAttributeChange s .moveSpeedMultiplier v).moveSpeedMultiplier) ∧
    (∀ (attr : VCAttribute) (v : ℚ),
      (attr = .maxHealth → s.health ≤ v) → (attr = .maxStamina → s.stamina ≤ v) →
      AttrInvariant (applyAttributeChange s attr v)) ∧
    ((PostGameplayEffectExecute_IncomingDamage s).incomingDamage = 0) ∧
    (s.incomingDamage > 0 →
      (PostGameplayEffectExecute_IncomingDamage s).health =
        FMathMax 0 (s.health - s.incomingDamage)) ∧
    (0 ≤ (PostGameplayEffectExecute_IncomingDamage s).health) ∧
    AttrInvariant (PostGameplayEffectExecute_IncomingDamage s) := by
  obtain ⟨hh0, hhm, hs0, hsm, hm0⟩ := hinv
  have hmx : 0 ≤ s.maxHealth := le_trans hh0 hhm
  have hsx : 0 ≤ s.maxStamina := le_trans hs0 hsm
  have hclampH : ∀ v : ℚ, 0 ≤ FMathClamp v 0 s.maxHealth ∧
      FMathClamp v 0 s.maxHealth ≤ s.maxHealth := by
    intro v
    unfold FMathClamp
    split_ifs with h1 h2 <;> constructor <;> linarith
  have hclampS : ∀ v : ℚ, 0 ≤ FMathClamp v 0 s.maxStamina ∧
      FMathClamp v 0 s.maxStamina ≤ s.maxStamina := by
    intro v
    unfold FMathClamp
    split_ifs with h1 h2 <;> constructor <;> linarith
  have hmax : ∀ v : ℚ, 0 ≤ FMathMax 0 v := by
    intro v
    unfold FMathMax
    split_ifs with h1 <;> linarith
  refine ⟨?_, ?_, ?_, ?_, ?_, ?_, ?_, ?_⟩
  · intro v
    exact hclampH v
  · intro v
    exact hclampS v
  · intro v
    exact hmax v
  · intro attr v hmh hms
    cases attr with
    | health =>
      exact ⟨(hclampH v).1, (hclampH v).2, hs0, hsm, hm0⟩
    | maxHealth =>
      exact ⟨hh0, hmh rfl, hs0, hsm, hm0⟩
    | stamina =>
      exact ⟨hh0, hhm, (hclampS v).1, (hclampS v).2, hm0⟩
    | maxStamina =>
      exact ⟨hh0, hhm, hs0, hms rfl, hm0⟩
    | moveSpeedMultiplier =>
      exact ⟨hh0, hhm, hs0, hsm, hmax v⟩
    | miningSpeed => exact ⟨hh0, hhm, hs0, hsm, hm0⟩
    | interactionRange => exact ⟨hh0, hhm, hs0, hsm, hm0⟩
    | incomingDamage => exact ⟨hh0, hhm, hs0, hsm, hm0⟩
  · unfold PostGameplayEffectExecute_IncomingDamage
    split_ifs with h1 <;> rfl
  · intro hd
    unfold PostGameplayEffectExecute_IncomingDamage
    rw [if_pos hd]
  · unfold PostGameplayEffectExecute_IncomingDamage
    split_ifs with h1
    · exact hmax _
    · exact hh0
  · unfold PostGameplayEffectExecute_IncomingDamage
    split_ifs with h1
    · refine ⟨hmax _, ?_, hs0, hsm, hm0⟩
      unfold FMathMax
      split_ifs with h2 <;> simp <;> linarith
    · exact ⟨hh0, hhm, hs0, hsm, hm0⟩

theorem AttributeSet_clamping_and_damage_witness :
    0 ≤ (applyAttributeChange initialAttributeSet .health (-20)).health ∧
      (applyAttributeChange initialAttributeSet .health (-20)).health ≤
        initialAttributeSet.maxHealth :=
  (AttributeSet_clamping_and_damage initialAttributeSet
    (by unfold AttrInvariant initialAttributeSet; norm_num)).1 (-20)

end VoxelCharacter
